import Mathlib

/-!
Verification of the provisioning orchestrator of a Proxmox externalgrpc
cloud provider: the VM lifecycle state machine, the tag/provider-id parsing
helpers, the group context, the scaling service and the delete pipeline of
the reconcile service, shallowly embedded from the Python sources
(`source/core/vm_state_machine.py`, `source/utils.py`,
`source/services/group_context.py`, `source/services/scaling_service.py`,
`source/services/reconcile_service.py`).

Records persisted in the state store keep their `state` field as a plain
string, exactly as the SQLite-backed store does; the typed state machine
below is wrapped by string-level functions mirroring
`transition_state(state, event)`.
-/

/-- Lifecycle states of `VMLifecycleStateMachine` (vm_state_machine.py). -/
inductive LState where
  | pending
  | active
  | failed
  | deleting_vm
  | deleting_iso
  | deleting_node
  | completed
deriving DecidableEq, Repr, Fintype

/-- Events of `VMLifecycleStateMachine`, including `mark_failed` which the
state machine declares but which has no `EVENT_` constant. -/
inductive Event where
  | became_active
  | became_pending
  | mark_failed
  | request_delete
  | infra_missing
  | vm_done
  | vm_retry
  | iso_done
  | iso_retry
  | node_done
  | node_retry
deriving DecidableEq, Repr, Fintype

/-- The transition relation declared on `VMLifecycleStateMachine`:
each event lists its legal `source.to(target)` arcs; anything else raises
`TransitionNotAllowed` in the library, modelled as `none`.  `completed`
is final, so no event is legal from it. -/
def transition : LState → Event → Option LState
  | .pending, .became_active => some .active
  | .active, .became_active => some .active
  | .active, .became_pending => some .pending
  | .pending, .became_pending => some .pending
  | .pending, .mark_failed => some .failed
  | .active, .mark_failed => some .failed
  | .failed, .mark_failed => some .failed
  | .pending, .request_delete => some .deleting_vm
  | .active, .request_delete => some .deleting_vm
  | .failed, .request_delete => some .deleting_vm
  | .deleting_vm, .request_delete => some .deleting_vm
  | .deleting_iso, .request_delete => some .deleting_iso
  | .deleting_node, .request_delete => some .deleting_node
  | .pending, .infra_missing => some .completed
  | .active, .infra_missing => some .completed
  | .failed, .infra_missing => some .completed
  | .deleting_vm, .infra_missing => some .deleting_iso
  | .deleting_iso, .infra_missing => some .deleting_iso
  | .deleting_node, .infra_missing => some .deleting_node
  | .deleting_vm, .vm_done => some .deleting_iso
  | .deleting_vm, .vm_retry => some .deleting_vm
  | .deleting_iso, .iso_done => some .deleting_node
  | .deleting_iso, .iso_retry => some .deleting_iso
  | .deleting_node, .node_done => some .completed
  | .deleting_node, .node_retry => some .deleting_node
  | _, _ => none

/-- String value of each state (the `value=` of each `State`). -/
def string_of_state : LState → String
  | .pending => "pending"
  | .active => "active"
  | .failed => "failed"
  | .deleting_vm => "deleting_vm"
  | .deleting_iso => "deleting_iso"
  | .deleting_node => "deleting_node"
  | .completed => "completed"

/-- Inverse of `string_of_state`; `_machine_for_state` raises `ValueError`
on any other string, modelled as `none`. -/
def state_of_string : String → Option LState
  | "pending" => some .pending
  | "active" => some .active
  | "failed" => some .failed
  | "deleting_vm" => some .deleting_vm
  | "deleting_iso" => some .deleting_iso
  | "deleting_node" => some .deleting_node
  | "completed" => some .completed
  | _ => none

/-- Event attribute lookup: `getattr(machine, event)` raises for any name
that is not a declared event, modelled as `none`. -/
def event_of_string : String → Option Event
  | "became_active" => some .became_active
  | "became_pending" => some .became_pending
  | "mark_failed" => some .mark_failed
  | "request_delete" => some .request_delete
  | "infra_missing" => some .infra_missing
  | "vm_done" => some .vm_done
  | "vm_retry" => some .vm_retry
  | "iso_done" => some .iso_done
  | "iso_retry" => some .iso_retry
  | "node_done" => some .node_done
  | "node_retry" => some .node_retry
  | _ => none

/-- `transition_state(state, event)` from vm_state_machine.py: rebuild a
machine at `state`, fire `event`, return the new state's value; every
failure (unsupported state, unknown event, illegal transition) raises,
modelled as `none`. -/
def transition_state (state event : String) : Option String :=
  match state_of_string state, event_of_string event with
  | some s, some e => (transition s e).map string_of_state
  | _, _ => none

/-- `LIFECYCLE_STATES` from vm_state_machine.py. -/
def LIFECYCLE_STATES : List String :=
  ["pending", "active", "failed", "deleting_vm", "deleting_iso", "deleting_node"]

/-- `DELETE_STATES` from vm_state_machine.py. -/
def DELETE_STATES : List String :=
  ["deleting_vm", "deleting_iso", "deleting_node"]

/-- `is_delete_state(state)` from vm_state_machine.py. -/
def is_delete_state (state : String) : Bool :=
  DELETE_STATES.contains state

/-- `is_lifecycle_state(state)` from vm_state_machine.py. -/
def is_lifecycle_state (state : String) : Bool :=
  LIFECYCLE_STATES.contains state

/-- The section 4.2 legal-transition table of the specification, written
from the spec's words (states down, the ten events across); an empty cell
is `none`.  This is the spec side of claim C1, to be compared with the
`transition_state` embedded from the code. -/
def spec_table : String → String → Option String
  | "pending", "became_active" => some "active"
  | "pending", "became_pending" => some "pending"
  | "pending", "request_delete" => some "deleting_vm"
  | "pending", "infra_missing" => some "completed"
  | "active", "became_active" => some "active"
  | "active", "became_pending" => some "pending"
  | "active", "request_delete" => some "deleting_vm"
  | "active", "infra_missing" => some "completed"
  | "failed", "request_delete" => some "deleting_vm"
  | "failed", "infra_missing" => some "completed"
  | "deleting_vm", "request_delete" => some "deleting_vm"
  | "deleting_vm", "infra_missing" => some "deleting_iso"
  | "deleting_vm", "vm_done" => some "deleting_iso"
  | "deleting_vm", "vm_retry" => some "deleting_vm"
  | "deleting_iso", "request_delete" => some "deleting_iso"
  | "deleting_iso", "infra_missing" => some "deleting_iso"
  | "deleting_iso", "iso_done" => some "deleting_node"
  | "deleting_iso", "iso_retry" => some "deleting_iso"
  | "deleting_node", "request_delete" => some "deleting_node"
  | "deleting_node", "infra_missing" => some "deleting_node"
  | "deleting_node", "node_done" => some "completed"
  | "deleting_node", "node_retry" => some "deleting_node"
  | _, _ => none

/-- The ten events enumerated in the section 4.2 table. -/
def TABLE_EVENTS : List String :=
  ["became_active", "became_pending", "request_delete", "infra_missing",
   "vm_done", "vm_retry", "iso_done", "iso_retry", "node_done", "node_retry"]

/-- C1: on every state of the six-state lifecycle and every event of the
section 4.2 table, `transition_state` agrees exactly with the table (so in
particular it is `none` on every empty cell, the code's
`InvalidTransition`), and it yields `completed` precisely from
`(deleting_node, node_done)` and from `infra_missing` out of
`pending`/`active`/`failed`. -/
theorem transition_matches_spec_table :
    ∀ s ∈ LIFECYCLE_STATES, ∀ e ∈ TABLE_EVENTS,
      transition_state s e = spec_table s e ∧
      (transition_state s e = some "completed" ↔
        ((s = "deleting_node" ∧ e = "node_done") ∨
          (s ∈ ["pending", "active", "failed"] ∧ e = "infra_missing"))) := by
  decide

/-- Witness for C1 at the cell the claim singles out: `infra_missing` maps
`deleting_vm` to `deleting_iso`, not to `completed`. -/
theorem transition_matches_spec_table_witness :
    transition_state "deleting_vm" "infra_missing" = spec_table "deleting_vm" "infra_missing" ∧
      (transition_state "deleting_vm" "infra_missing" = some "completed" ↔
        (("deleting_vm" : String) = "deleting_node" ∧ ("infra_missing" : String) = "node_done") ∨
          (("deleting_vm" : String) ∈ ["pending", "active", "failed"] ∧
            ("infra_missing" : String) = "infra_missing")) :=
  transition_matches_spec_table "deleting_vm" (by decide) "infra_missing" (by decide)

/-! ## Tag parsing (`parse_tags` in source/utils.py)

Python strings are modelled as `List Char`; `str.strip()` removes ASCII
whitespace from both ends. -/

/-- The ASCII whitespace characters removed by Python's `str.strip()`. -/
def py_space (c : Char) : Bool :=
  c = ' ' || c = '\t' || c = '\n' || c = '\r' || c = '\x0b' || c = '\x0c'

/-- `part.strip()`: drop leading and trailing whitespace. -/
def strip (s : List Char) : List Char :=
  ((s.dropWhile py_space).reverse.dropWhile py_space).reverse

/-- `str(raw).replace(",", ";")`, one character at a time. -/
def replace_comma (c : Char) : Char :=
  if c = ',' then ';' else c

/-- The loop body of `parse_tags`: walk the parts split on `;`, strip each,
skip empty parts and parts already in `seen`, append the rest in order. -/
def parse_tags_go (seen : List (List Char)) : List (List Char) → List (List Char)
  | [] => []
  | p :: ps =>
    if (strip p).isEmpty || seen.contains (strip p) then parse_tags_go seen ps
    else strip p :: parse_tags_go (strip p :: seen) ps

/-- `parse_tags(raw)` from source/utils.py: replace `,` by `;`, split on
`;`, strip each part, drop empties and duplicates preserving first
occurrence.  (The Python early return on falsy `raw` coincides with the
general path on the empty string.) -/
def parse_tags (raw : List Char) : List (List Char) :=
  parse_tags_go [] ((raw.map replace_comma).splitOn ';')

/-- First-occurrence deduplication as the spec describes it: keep each
element's first occurrence, in order.  Spec side of claim C9. -/
def dedup_first : List (List Char) → List (List Char)
  | [] => []
  | t :: ts => t :: dedup_first (ts.filter (fun x => x ≠ t))
termination_by l => l.length
decreasing_by
  simp only [List.length_cons]
  exact Nat.lt_succ_of_le (List.length_filter_le _ _)

/-- `";".join(tags)`: parts joined with a single `;` between them. -/
def join_semi : List (List Char) → List Char
  | [] => []
  | [t] => t
  | t :: ts => t ++ ';' :: join_semi ts

/-- Every element of every part of `splitOnP p s` fails `p` and occurs in
`s`. -/
theorem splitOnP_parts {α : Type} (p : α → Bool) :
    ∀ s : List α, ∀ l ∈ List.splitOnP p s, ∀ x ∈ l, p x = false ∧ x ∈ s := by
  intro s
  induction s with
  | nil =>
    intro l hl x hx
    rw [List.splitOnP_nil] at hl
    simp only [List.mem_singleton] at hl
    subst hl
    simp at hx
  | cons a s ih =>
    intro l hl x hx
    rw [List.splitOnP_cons] at hl
    by_cases hpa : p a = true
    · simp only [hpa, if_true, List.mem_cons] at hl
      rcases hl with rfl | hl
      · simp at hx
      · obtain ⟨h1, h2⟩ := ih l hl x hx
        exact ⟨h1, List.mem_cons_of_mem _ h2⟩
    · simp only [hpa, if_false] at hl
      obtain ⟨h, t, hht⟩ := List.exists_cons_of_ne_nil (List.splitOnP_ne_nil p s)
      rw [hht, List.modifyHead_cons] at hl
      rcases List.mem_cons.mp hl with rfl | hl'
      · rcases List.mem_cons.mp hx with rfl | hx'
        · exact ⟨Bool.eq_false_iff.mpr hpa, List.mem_cons_self _ _⟩
        · obtain ⟨h1, h2⟩ := ih h (hht ▸ List.mem_cons_self _ _) x hx'
          exact ⟨h1, List.mem_cons_of_mem _ h2⟩
      · obtain ⟨h1, h2⟩ := ih l (hht ▸ List.mem_cons_of_mem _ hl') x hx
        exact ⟨h1, List.mem_cons_of_mem _ h2⟩

/-- The head surviving `dropWhile p` fails `p`. -/
theorem head_dropWhile {α : Type} (p : α → Bool) :
    ∀ (l : List α) (x : α), (l.dropWhile p).head? = some x → p x = false := by
  intro l
  induction l with
  | nil => intro x h; simp [List.dropWhile] at h
  | cons a l ih =>
    intro x h
    rw [List.dropWhile_cons] at h
    by_cases hpa : p a = true
    · rw [if_pos hpa] at h
      exact ih x h
    · rw [if_neg hpa] at h
      simp only [List.head?_cons, Option.some_inj] at h
      subst h
      exact Bool.eq_false_iff.mpr hpa

/-- `dropWhile` is the identity when the head already fails `p`. -/
theorem dropWhile_eq_self_of_head {α : Type} (p : α → Bool) (l : List α)
    (h : ∀ x, l.head? = some x → p x = false) : l.dropWhile p = l := by
  cases l with
  | nil => rfl
  | cons a t =>
    rw [List.dropWhile_cons, if_neg]
    simp [h a rfl]

/-- The first character of a stripped string is not whitespace. -/
theorem strip_head {s : List Char} {x : Char} (h : (strip s).head? = some x) :
    py_space x = false := by
  unfold strip at h
  rw [List.head?_reverse] at h
  rcases hs : List.dropWhile py_space ((List.dropWhile py_space s).reverse) with _ | ⟨b, v⟩
  · rw [hs] at h; simp at h
  · obtain ⟨w, hw⟩ := List.dropWhile_suffix (l := (List.dropWhile py_space s).reverse) py_space
    rw [hs] at h hw
    have hlast : ((List.dropWhile py_space s).reverse).getLast? = some x := by
      rw [← hw, List.getLast?_append, h]
      rfl
    rw [List.getLast?_reverse] at hlast
    exact head_dropWhile py_space s x hlast

/-- The last character of a stripped string is not whitespace. -/
theorem strip_last {s : List Char} {x : Char} (h : (strip s).getLast? = some x) :
    py_space x = false := by
  unfold strip at h
  rw [List.getLast?_reverse] at h
  exact head_dropWhile py_space _ x h

/-- `str.strip()` is idempotent. -/
theorem strip_idem (s : List Char) : strip (strip s) = strip s := by
  have h1 : (strip s).dropWhile py_space = strip s :=
    dropWhile_eq_self_of_head _ _ (fun x hx => strip_head hx)
  have h2 : (strip s).reverse.dropWhile py_space = (strip s).reverse := by
    refine dropWhile_eq_self_of_head _ _ (fun x hx => strip_last (s := s) ?_)
    rw [← List.head?_reverse]
    exact hx
  show ((((strip s).dropWhile py_space).reverse.dropWhile py_space)).reverse = strip s
  rw [h1, h2, List.reverse_reverse]

/-- Characters of a stripped string come from the original string. -/
theorem mem_strip {s : List Char} {x : Char} (h : x ∈ strip s) : x ∈ s := by
  unfold strip at h
  rw [List.mem_reverse] at h
  have h2 := (List.dropWhile_sublist py_space).subset h
  rw [List.mem_reverse] at h2
  exact (List.dropWhile_sublist py_space).subset h2

/-- Elements of `dedup_first l` come from `l`. -/
theorem mem_dedup_first : ∀ {l : List (List Char)} {x : List Char},
    x ∈ dedup_first l → x ∈ l := by
  intro l
  induction l using dedup_first.induct with
  | case1 => intro x h; simp [dedup_first] at h
  | case2 t ts ih =>
    intro x h
    rw [dedup_first] at h
    rcases List.mem_cons.mp h with rfl | h'
    · exact List.mem_cons_self _ _
    · exact List.mem_cons_of_mem _ (List.mem_filter.mp (ih h')).1

/-- `dedup_first` produces a duplicate-free list. -/
theorem nodup_dedup_first : ∀ l : List (List Char), (dedup_first l).Nodup := by
  intro l
  induction l using dedup_first.induct with
  | case1 => simp [dedup_first]
  | case2 t ts ih =>
    rw [dedup_first]
    refine List.nodup_cons.mpr ⟨fun hmem => ?_, ih⟩
    have h2 := (List.mem_filter.mp (mem_dedup_first hmem)).2
    simp at h2

/-- The seen-set loop of `parse_tags` computes first-occurrence
deduplication of the stripped, nonempty parts not already seen. -/
theorem parse_tags_go_eq :
    ∀ (parts seen : List (List Char)),
      parse_tags_go seen parts =
        dedup_first (((parts.map strip).filter (fun t => !t.isEmpty)).filter
          (fun t => !seen.contains t)) := by
  intro parts
  induction parts with
  | nil => intro seen; simp [parse_tags_go, dedup_first]
  | cons p ps ih =>
    intro seen
    rw [List.map_cons, List.filter_cons]
    by_cases h1 : (strip p).isEmpty
    · rw [if_neg (by simp [h1])]
      rw [parse_tags_go, if_pos (by simp [h1])]
      exact ih seen
    · rw [if_pos (by simp [h1]), List.filter_cons]
      by_cases h2 : strip p ∈ seen
      · rw [if_neg (by simp [h2])]
        rw [parse_tags_go, if_pos (by simp [h2])]
        exact ih seen
      · rw [if_pos (by simp [h2])]
        rw [parse_tags_go, if_neg (by simp [h1, h2])]
        rw [dedup_first]
        congr 1
        rw [ih (strip p :: seen)]
        simp only [List.filter_filter]
        congr 1
        apply List.filter_congr
        intro x _
        by_cases hxe : x.isEmpty <;> by_cases hxs : x ∈ seen <;>
          by_cases hxp : x = strip p <;>
          simp [hxe, hxs, hxp, List.contains_cons, beq_eq_decide, eq_comm]

/-- On a duplicate-free list of already-stripped, nonempty, unseen tags
the `parse_tags` loop is the identity. -/
theorem parse_tags_go_self :
    ∀ (ts seen : List (List Char)),
      (∀ t ∈ ts, strip t = t ∧ t.isEmpty = false) → ts.Nodup →
      (∀ t ∈ ts, t ∉ seen) →
      parse_tags_go seen ts = ts := by
  intro ts
  induction ts with
  | nil => intro seen _ _ _; rfl
  | cons t ts ih =>
    intro seen hst hnd hseen
    obtain ⟨hstrip, hne⟩ := hst t (List.mem_cons_self _ _)
    rw [parse_tags_go, hstrip, if_neg (by simp [hne, hseen t (List.mem_cons_self _ _)])]
    congr 1
    refine ih (t :: seen) (fun u hu => hst u (List.mem_cons_of_mem _ hu))
      (List.nodup_cons.mp hnd).2 (fun u hu => ?_)
    have hut : ¬u = t := fun h => (List.nodup_cons.mp hnd).1 (h ▸ hu)
    simp [hut, hseen u (List.mem_cons_of_mem _ hu)]

/-- Characters of a `;`-join are either `;` or come from one of the
joined parts. -/
theorem mem_join_semi :
    ∀ (ts : List (List Char)) (x : Char),
      x ∈ join_semi ts → x = ';' ∨ ∃ t ∈ ts, x ∈ t := by
  intro ts
  induction ts with
  | nil => intro x h; simp [join_semi] at h
  | cons t ts ih =>
    intro x h
    cases ts with
    | nil => exact Or.inr ⟨t, List.mem_cons_self _ _, h⟩
    | cons t' ts' =>
      rw [show join_semi (t :: t' :: ts') = t ++ ';' :: join_semi (t' :: ts') from rfl] at h
      rcases List.mem_append.mp h with h | h
      · exact Or.inr ⟨t, List.mem_cons_self _ _, h⟩
      · rcases List.mem_cons.mp h with rfl | h
        · exact Or.inl rfl
        · rcases ih x h with h | ⟨u, hu, hxu⟩
          · exact Or.inl h
          · exact Or.inr ⟨u, List.mem_cons_of_mem _ hu, hxu⟩

/-- Splitting a `;`-join on `;` recovers the parts, provided no part
contains `;` and the part list is nonempty. -/
theorem splitOn_join_semi :
    ∀ ts : List (List Char), ts ≠ [] →
      (∀ t ∈ ts, ∀ x ∈ t, (x == ';') = false) →
      (join_semi ts).splitOn ';' = ts := by
  intro ts
  induction ts with
  | nil => intro h; exact absurd rfl h
  | cons t ts ih =>
    intro _ hno
    cases ts with
    | nil =>
      show t.splitOnP (· == ';') = [t]
      exact List.splitOnP_eq_single _ _
        (fun x hx => by simp [hno t (List.mem_cons_self _ _) x hx])
    | cons t' ts' =>
      show List.splitOnP (· == ';') (t ++ ';' :: join_semi (t' :: ts')) = t :: t' :: ts'
      rw [List.splitOnP_first (· == ';') t
        (fun x hx => by simp [hno t (List.mem_cons_self _ _) x hx]) ';' (by simp)
        (join_semi (t' :: ts'))]
      congr 1
      exact ih (by simp) (fun u hu => hno u (List.mem_cons_of_mem _ hu))

/-- `replace(",", ";")` is idempotent on characters. -/
theorem replace_comma_idem (y : Char) :
    replace_comma (replace_comma y) = replace_comma y := by
  unfold replace_comma
  by_cases h : y = ','
  · simp [h]
  · simp [h]

/-- Every tag produced by `parse_tags` is already stripped, nonempty,
free of `;` and untouched by the comma replacement. -/
theorem parse_tags_facts (raw : List Char) :
    ∀ t ∈ parse_tags raw, strip t = t ∧ t.isEmpty = false ∧
      (∀ x ∈ t, (x == ';') = false) ∧ (∀ x ∈ t, replace_comma x = x) := by
  intro t ht
  unfold parse_tags at ht
  rw [parse_tags_go_eq] at ht
  have ht2 := mem_dedup_first ht
  obtain ⟨hmem, -⟩ := List.mem_filter.mp ht2
  obtain ⟨hmem2, hne⟩ := List.mem_filter.mp hmem
  obtain ⟨p, hp, rfl⟩ := List.mem_map.mp hmem2
  have hparts := splitOnP_parts (· == ';') (raw.map replace_comma) p hp
  refine ⟨strip_idem p, by simpa using hne, ?_, ?_⟩
  · intro x hx
    exact (hparts x (mem_strip hx)).1
  · intro x hx
    obtain ⟨y, -, rfl⟩ := List.mem_map.mp (hparts x (mem_strip hx)).2
    exact replace_comma_idem y

/-- C9: `parse_tags` round-trips through a `;`-join of its own output,
its output has no empty tag and no duplicate, and it equals the spec's
description: replace `,` by `;`, split on `;`, trim each part, drop
empties, and keep first occurrences in order. -/
theorem parse_tags_round_trip (raw : List Char) :
    parse_tags (join_semi (parse_tags raw)) = parse_tags raw ∧
    (∀ t ∈ parse_tags raw, t ≠ []) ∧
    (parse_tags raw).Nodup ∧
    parse_tags raw =
      dedup_first ((((raw.map replace_comma).splitOn ';').map strip).filter
        (fun t => !t.isEmpty)) := by
  have hfacts := parse_tags_facts raw
  have hnd : (parse_tags raw).Nodup := by
    unfold parse_tags
    rw [parse_tags_go_eq]
    exact nodup_dedup_first _
  have hchar : parse_tags raw =
      dedup_first ((((raw.map replace_comma).splitOn ';').map strip).filter
        (fun t => !t.isEmpty)) := by
    unfold parse_tags
    rw [parse_tags_go_eq]
    congr 1
    refine (List.filter_congr fun x _ => by simp).trans (List.filter_true _)
  refine ⟨?_, fun t ht => by simpa [List.isEmpty_iff] using (hfacts t ht).2.1, hnd, hchar⟩
  by_cases hts : parse_tags raw = []
  · rw [hts]
    decide
  · have hsplit : (join_semi (parse_tags raw)).splitOn ';' = parse_tags raw :=
      splitOn_join_semi _ hts (fun t ht x hx => (hfacts t ht).2.2.1 x hx)
    have hmap : (join_semi (parse_tags raw)).map replace_comma =
        join_semi (parse_tags raw) := by
      conv_rhs => rw [← List.map_id (join_semi (parse_tags raw))]
      refine List.map_congr_left fun x hx => ?_
      rcases mem_join_semi _ x hx with rfl | ⟨t, ht, hxt⟩
      · rfl
      · exact (hfacts t ht).2.2.2 x hxt
    show parse_tags_go [] (((join_semi (parse_tags raw)).map replace_comma).splitOn ';') =
      parse_tags raw
    rw [hmap, hsplit]
    exact parse_tags_go_self _ []
      (fun t ht => ⟨(hfacts t ht).1, (hfacts t ht).2.1⟩) hnd (fun t _ => List.not_mem_nil t)

/-- Witness for C9 at the concrete raw string `" a,b ;a;;b"`. -/
theorem parse_tags_round_trip_witness :
    parse_tags (join_semi (parse_tags (" a,b ;a;;b".data))) =
        parse_tags (" a,b ;a;;b".data) ∧
      (∀ t ∈ parse_tags (" a,b ;a;;b".data), t ≠ []) ∧
      (parse_tags (" a,b ;a;;b".data)).Nodup ∧
      parse_tags (" a,b ;a;;b".data) =
        dedup_first (((((" a,b ;a;;b".data).map replace_comma).splitOn ';').map strip).filter
          (fun t => !t.isEmpty)) :=
  parse_tags_round_trip (" a,b ;a;;b".data)

/-! ## Provider-id resolution (`vmid_from_provider_id` in source/utils.py,
`find_vm_for_node` in source/services/group_context.py) -/

/-- Decimal value of a digit string, most significant first. -/
def digits_to_nat (ds : List Char) : Nat :=
  ds.foldl (fun n c => 10 * n + (c.toNat - '0'.toNat)) 0

/-- `vmid_from_provider_id(provider_id)` from source/utils.py:
`re.search(r"(\d+)$", ...)` matches the maximal trailing run of digits
(modelled over the ASCII digits), `int(...)` its decimal value; no match
when the string does not end in a digit (`provider_id or ""` also sends
the empty string here). -/
def vmid_from_provider_id (provider_id : String) : Option Nat :=
  if (provider_id.data.reverse.takeWhile Char.isDigit).isEmpty then none
  else some (digits_to_nat (provider_id.data.reverse.takeWhile Char.isDigit).reverse)

/-- `VMInfo` from core/models.py (an observation of a Proxmox VM). -/
structure VMInfo where
  vmid : Nat
  name : String
  status : String
  tags : List String
deriving DecidableEq, Repr

/-- `ManagedNode` from services/group_context.py (a Cluster Autoscaler
node reference). -/
structure ManagedNode where
  provider_id : String
  name : String
  labels : List (String × String)
deriving DecidableEq, Repr

/-- Python `str.strip()` on a Lean `String`. -/
def strip_string (s : String) : String :=
  ⟨strip s.data⟩

/-- `by_vmid = {v.vmid: v for v in vms}` indexed at `k`: a dict
comprehension keeps the last entry for a duplicated key. -/
def by_vmid_find (vms : List VMInfo) (k : Nat) : Option VMInfo :=
  vms.reverse.find? (fun v => v.vmid == k)

/-- The name-fallback tail of `find_vm_for_node`:
`node_name = (node.name or "").strip()`, and if nonempty the first VM of
the list whose name equals it. -/
def find_vm_by_name (vms : List VMInfo) (node : ManagedNode) : Option VMInfo :=
  if (strip_string node.name).isEmpty then none
  else vms.find? (fun vm => vm.name == strip_string node.name)

/-- `find_vm_for_node(group, node)` from services/group_context.py over a
snapshot `vms` of `group_vms(group)`: try the vmid extracted from
`node.provider_id` against the vmid index, then fall back to the stripped
node name. -/
def find_vm_for_node (vms : List VMInfo) (node : ManagedNode) : Option VMInfo :=
  match vmid_from_provider_id node.provider_id with
  | some k =>
    match by_vmid_find vms k with
    | some vm => some vm
    | none => find_vm_by_name vms node
  | none => find_vm_by_name vms node

/-- `takeWhile` is empty exactly when the head already fails the
predicate. -/
theorem takeWhile_eq_nil_iff_head {α : Type} (p : α → Bool) (l : List α) :
    l.takeWhile p = [] ↔ ∀ c, l.head? = some c → p c = false := by
  cases l with
  | nil => simp
  | cons a t =>
    rw [List.takeWhile_cons]
    by_cases hpa : p a = true
    · simp [hpa]
    · simp only [hpa, if_false, List.head?_cons]
      constructor
      · intro _ c hc
        cases hc
        exact Bool.eq_false_iff.mpr hpa
      · intro _
        rfl

/-- C8 counterexample: with the single group VM named `"vm1"` and a node
whose name is `"vm1 "` (trailing blank) and whose provider id yields no
vmid, no VM name equals `node.name` exactly and yet `find_vm_for_node`
resolves the node — the code compares against the *stripped* node name,
refuting the claim's exact-equality reading. -/
theorem find_vm_for_node_counterexample :
    vmid_from_provider_id "" = none ∧
    (([⟨1, "vm1", "running", []⟩] : List VMInfo).all
      (fun vm => vm.name != "vm1 ")) = true ∧
    find_vm_for_node [⟨1, "vm1", "running", []⟩] ⟨"", "vm1 ", []⟩ =
      some ⟨1, "vm1", "running", []⟩ := by
  decide

/-- C8 (amended): `vmid_from_provider_id` extracts the trailing digit run
(`"k3s://ca-general-123"` gives `123`) and is `none` exactly when the
provider id does not end in a digit; `find_vm_for_node` returns a group VM
with the extracted vmid whenever one exists, and otherwise falls back to
the first group VM whose name equals `node.name` *stripped of surrounding
whitespace* (no name fallback when that stripped name is empty). -/
theorem find_vm_for_node_resolution (vms : List VMInfo) (node : ManagedNode) :
    vmid_from_provider_id "k3s://ca-general-123" = some 123 ∧
    (vmid_from_provider_id node.provider_id = none ↔
      ∀ c, node.provider_id.data.getLast? = some c → c.isDigit = false) ∧
    (∀ k, vmid_from_provider_id node.provider_id = some k →
      ((∃ vm ∈ vms, vm.vmid = k) →
        ∃ u ∈ vms, find_vm_for_node vms node = some u ∧ u.vmid = k) ∧
      ((∀ vm ∈ vms, vm.vmid ≠ k) →
        find_vm_for_node vms node =
          if (strip_string node.name).isEmpty then none
          else vms.find? (fun vm => vm.name == strip_string node.name))) ∧
    (vmid_from_provider_id node.provider_id = none →
      find_vm_for_node vms node =
        if (strip_string node.name).isEmpty then none
        else vms.find? (fun vm => vm.name == strip_string node.name)) := by
  refine ⟨by decide, ?_, ?_, ?_⟩
  · unfold vmid_from_provider_id
    by_cases h : (node.provider_id.data.reverse.takeWhile Char.isDigit).isEmpty
    · simp only [h, if_true]
      rw [List.isEmpty_iff] at h
      rw [takeWhile_eq_nil_iff_head] at h
      simp only [List.head?_reverse] at h
      exact iff_of_true trivial h
    · simp only [h, if_false]
      rw [List.isEmpty_iff, takeWhile_eq_nil_iff_head] at h
      simp only [List.head?_reverse] at h
      push_neg at h
      obtain ⟨c, hc, hdig⟩ := h
      constructor
      · intro hnone
        exact absurd hnone (by simp)
      · intro hall
        exact absurd (hall c hc) (by simp [hdig])
  · intro k hk
    constructor
    · intro ⟨vm, hmem, hvm⟩
      have hsome : (vms.reverse.find? (fun v => v.vmid == k)).isSome = true := by
        rw [List.find?_isSome]
        exact ⟨vm, List.mem_reverse.mpr hmem, by simp [hvm]⟩
      obtain ⟨u, hu⟩ := Option.isSome_iff_exists.mp hsome
      refine ⟨u, List.mem_reverse.mp (List.mem_of_find?_eq_some hu), ?_, ?_⟩
      · simp only [find_vm_for_node, hk, by_vmid_find, hu]
      · have := List.find?_some hu
        simpa using this
    · intro hnone
      have hfind : by_vmid_find vms k = none := by
        rw [by_vmid_find, List.find?_eq_none]
        intro v hv
        simp only [beq_iff_eq]
        exact hnone v (List.mem_reverse.mp hv)
      simp only [find_vm_for_node, hk, hfind, find_vm_by_name]
  · intro hnone
    simp only [find_vm_for_node, hnone, find_vm_by_name]

/-- Witness for C8's amended theorem: a concrete group with VM 101 named
`ca-general-101`, resolved through the provider id `k3s://ca-general-101`. -/
theorem find_vm_for_node_resolution_witness :
    vmid_from_provider_id "k3s://ca-general-123" = some 123 ∧
    (vmid_from_provider_id (ManagedNode.mk "k3s://ca-general-101" "ca-general-101" []).provider_id = none ↔
      ∀ c, (ManagedNode.mk "k3s://ca-general-101" "ca-general-101" []).provider_id.data.getLast? = some c →
        c.isDigit = false) ∧
    (∀ k, vmid_from_provider_id (ManagedNode.mk "k3s://ca-general-101" "ca-general-101" []).provider_id = some k →
      ((∃ vm ∈ [VMInfo.mk 101 "ca-general-101" "running" []], vm.vmid = k) →
        ∃ u ∈ [VMInfo.mk 101 "ca-general-101" "running" []],
          find_vm_for_node [VMInfo.mk 101 "ca-general-101" "running" []]
            (ManagedNode.mk "k3s://ca-general-101" "ca-general-101" []) = some u ∧ u.vmid = k) ∧
      ((∀ vm ∈ [VMInfo.mk 101 "ca-general-101" "running" []], vm.vmid ≠ k) →
        find_vm_for_node [VMInfo.mk 101 "ca-general-101" "running" []]
            (ManagedNode.mk "k3s://ca-general-101" "ca-general-101" []) =
          if (strip_string (ManagedNode.mk "k3s://ca-general-101" "ca-general-101" []).name).isEmpty then none
          else [VMInfo.mk 101 "ca-general-101" "running" []].find?
            (fun vm => vm.name == strip_string (ManagedNode.mk "k3s://ca-general-101" "ca-general-101" []).name))) ∧
    (vmid_from_provider_id (ManagedNode.mk "k3s://ca-general-101" "ca-general-101" []).provider_id = none →
      find_vm_for_node [VMInfo.mk 101 "ca-general-101" "running" []]
          (ManagedNode.mk "k3s://ca-general-101" "ca-general-101" []) =
        if (strip_string (ManagedNode.mk "k3s://ca-general-101" "ca-general-101" []).name).isEmpty then none
        else [VMInfo.mk 101 "ca-general-101" "running" []].find?
          (fun vm => vm.name == strip_string (ManagedNode.mk "k3s://ca-general-101" "ca-general-101" []).name)) :=
  find_vm_for_node_resolution [VMInfo.mk 101 "ca-general-101" "running" []]
    (ManagedNode.mk "k3s://ca-general-101" "ca-general-101" [])

/-! ## The persisted state (infra/state_store.py)

The `vm_states` table is modelled as a list of rows with unique primary
key `vmid`; `upsert` replaces the row carrying the key, SQLite's
`INSERT ... ON CONFLICT(vmid) DO UPDATE`.  The `group_sizes` table is a
list of `(group_id, desired_size)` rows keyed by `group_id`. -/

/-- `VMStateRecord` from core/contracts.py, one row of `vm_states`. -/
structure VMStateRecord where
  vmid : Nat
  group_id : String
  vm_name : String
  state : String
  pending_since : Option Int
  updated_at : Int
  last_error : Option String
  cleanup_storage : Option String
  cleanup_volume : Option String
deriving DecidableEq, Repr

/-- `GroupConfig` from core/models.py (the fields the orchestrator's
scaling logic reads). -/
structure GroupConfig where
  id : String
  min_size : Int
  max_size : Int
deriving DecidableEq, Repr

/-- The `vm_states` table. -/
abbrev Ledger := List VMStateRecord

/-- `get_vm_state(vmid)`: primary-key lookup. -/
def get_vm_state (l : Ledger) (vmid : Nat) : Option VMStateRecord :=
  l.find? (fun r => r.vmid == vmid)

/-- `upsert_vm_state(...)`: replace the row keyed `r.vmid`, or insert. -/
def upsert_vm_state : Ledger → VMStateRecord → Ledger
  | [], r => [r]
  | x :: xs, r => if x.vmid == r.vmid then r :: xs else x :: upsert_vm_state xs r

/-- `delete_vm_state(vmid)`: idempotent row deletion. -/
def delete_vm_state (l : Ledger) (vmid : Nat) : Ledger :=
  l.filter (fun r => !(r.vmid == vmid))

/-- The `group_sizes` table. -/
abbrev GroupSizes := List (String × Int)

/-- `get_desired_size(group_id)`. -/
def get_desired_size (g : GroupSizes) (group_id : String) : Option Int :=
  (g.find? (fun p => p.1 == group_id)).map (fun p => p.2)

/-- `set_desired_size(group_id, n)`: keyed insert-or-replace. -/
def set_desired_size : GroupSizes → String → Int → GroupSizes
  | [], group_id, n => [(group_id, n)]
  | p :: ps, group_id, n =>
    if p.1 == group_id then (group_id, n) :: ps else p :: set_desired_size ps group_id n

/-- `set_desired_size_if_missing(group_id, n)`: `ON CONFLICT DO NOTHING`. -/
def set_desired_size_if_missing (g : GroupSizes) (group_id : String) (n : Int) : GroupSizes :=
  if (get_desired_size g group_id).isSome then g else g ++ [(group_id, n)]

/-- Reading back the upserted key yields the upserted row. -/
theorem get_upsert_self (l : Ledger) (r : VMStateRecord) :
    get_vm_state (upsert_vm_state l r) r.vmid = some r := by
  induction l with
  | nil =>
    show List.find? _ [r] = some r
    rw [List.find?_singleton, if_pos (by simp)]
  | cons x xs ih =>
    rw [upsert_vm_state]
    by_cases h : x.vmid = r.vmid
    · rw [if_pos (by simp [h])]
      exact List.find?_cons_of_pos _ (by simp)
    · rw [if_neg (by simp [h])]
      show List.find? _ (x :: upsert_vm_state xs r) = some r
      rw [List.find?_cons_of_neg _ (by simp [h])]
      exact ih

/-- Upserting one key leaves every other key's row unchanged. -/
theorem get_upsert_ne (l : Ledger) (r : VMStateRecord) (w : Nat) (hw : w ≠ r.vmid) :
    get_vm_state (upsert_vm_state l r) w = get_vm_state l w := by
  induction l with
  | nil =>
    show List.find? _ [r] = List.find? _ []
    rw [List.find?_singleton, if_neg (by simpa using Ne.symm hw)]
    rfl
  | cons x xs ih =>
    rw [upsert_vm_state]
    by_cases h : x.vmid = r.vmid
    · rw [if_pos (by simp [h])]
      show List.find? _ (r :: xs) = List.find? _ (x :: xs)
      rw [List.find?_cons_of_neg _ (by simpa using Ne.symm hw),
        List.find?_cons_of_neg _ (by rw [h]; simpa using Ne.symm hw)]
    · rw [if_neg (by simp [h])]
      show List.find? _ (x :: upsert_vm_state xs r) = List.find? _ (x :: xs)
      by_cases hxw : x.vmid = w
      · rw [List.find?_cons_of_pos _ (by simp [hxw]), List.find?_cons_of_pos _ (by simp [hxw])]
      · rw [List.find?_cons_of_neg _ (by simp [hxw]), List.find?_cons_of_neg _ (by simp [hxw])]
        exact ih

/-- Reading back a freshly set desired size. -/
theorem get_set_desired_size_self (g : GroupSizes) (group_id : String) (n : Int) :
    get_desired_size (set_desired_size g group_id n) group_id = some n := by
  induction g with
  | nil =>
    show (List.find? _ [(group_id, n)]).map _ = some n
    rw [List.find?_singleton, if_pos (by simp)]
    rfl
  | cons p ps ih =>
    rw [set_desired_size]
    by_cases h : p.1 = group_id
    · rw [if_pos (by simp [h])]
      show (List.find? _ ((group_id, n) :: ps)).map _ = some n
      rw [List.find?_cons_of_pos _ (by simp)]
      rfl
    · rw [if_neg (by simp [h])]
      show (List.find? _ (p :: set_desired_size ps group_id n)).map _ = some n
      rw [List.find?_cons_of_neg _ (by simp [h])]
      exact ih

/-- `set_desired_size_if_missing` keeps an existing row and otherwise
creates the row with the given value. -/
theorem get_set_if_missing (g : GroupSizes) (group_id : String) (n : Int) :
    get_desired_size (set_desired_size_if_missing g group_id n) group_id =
      some ((get_desired_size g group_id).getD n) ∧
    ((get_desired_size g group_id).isSome = true →
      set_desired_size_if_missing g group_id n = g) := by
  unfold set_desired_size_if_missing
  by_cases h : (get_desired_size g group_id).isSome = true
  · obtain ⟨d, hd⟩ := Option.isSome_iff_exists.mp h
    simp [h, hd]
  · rw [if_neg h]
    rw [Option.not_isSome_iff_eq_none] at h
    refine ⟨?_, by simp [h]⟩
    rw [h]
    have hfind : g.find? (fun p => p.1 == group_id) = none := by
      unfold get_desired_size at h
      exact Option.map_eq_none.mp h
    show (List.find? _ (g ++ [(group_id, n)])).map _ = some (Option.getD none n)
    rw [List.find?_append, hfind, List.find?_singleton, if_pos (by simp)]
    rfl

/-! ## Group context mutations (services/group_context.py) -/

/-- The seeding tail of `ensure_vm_state`: `active` if the VM observes as
running, else `pending` with `pending_since = now`; full-row upsert with
defaulted error and cleanup columns. -/
def ensure_seed (now : Int) (group : GroupConfig) (vm : VMInfo) (l : Ledger) :
    String × Ledger :=
  if vm.status == "running" then
    ("active", upsert_vm_state l ⟨vm.vmid, group.id, vm.name, "active", none, now, none, none, none⟩)
  else
    ("pending", upsert_vm_state l ⟨vm.vmid, group.id, vm.name, "pending", some now, now, none, none, none⟩)

/-- `GroupContext.ensure_vm_state(group, vm)`: keep a persisted record
carrying the same group id and a legal lifecycle state; otherwise seed
from the observed status. -/
def ensure_vm_state (now : Int) (group : GroupConfig) (vm : VMInfo) (l : Ledger) :
    String × Ledger :=
  match get_vm_state l vm.vmid with
  | some record =>
    if record.group_id == group.id && is_lifecycle_state record.state then
      (record.state, l)
    else ensure_seed now group vm l
  | none => ensure_seed now group vm l

/-- `GroupContext.set_vm_state(...)`: full-row upsert keyed by the VM,
stamped with the calling group's id and the VM's name. -/
def set_vm_state (now : Int) (group : GroupConfig) (vm : VMInfo) (state : String)
    (pending_since : Option Int) (last_error : Option String)
    (cleanup_storage : Option String) (cleanup_volume : Option String)
    (l : Ledger) : Ledger :=
  upsert_vm_state l
    ⟨vm.vmid, group.id, vm.name, state, pending_since, now, last_error,
      cleanup_storage, cleanup_volume⟩

/-- Python truthiness of an optional string (`None` and `""` are falsy). -/
def truthy : Option String → Bool
  | none => false
  | some s => !s.isEmpty

/-- The seed-ISO capture of `request_vm_deletion`: when either stored
cleanup column is falsy, replace both with a successfully read
`attached_seed_iso` reference. -/
def capture_cleanup (seed_ref : Option (String × String)) (cs cv : Option String) :
    Option String × Option String :=
  if !truthy cs || !truthy cv then
    match seed_ref with
    | some sv => (some sv.1, some sv.2)
    | none => (cs, cv)
  else (cs, cv)

/-- The tail of `ScalingService.request_vm_deletion` once the current
state and stored cleanup references are in hand: capture the seed-ISO
reference when either cleanup column is falsy, transition through the FSM
(or force `deleting_vm` for a non-lifecycle state), persist with
`pending_since = None`.  `none` models the `transition_state` raise. -/
def request_vm_deletion_core (now : Int) (group : GroupConfig) (vm : VMInfo)
    (seed_ref : Option (String × String)) (current_state : String)
    (cs cv : Option String) (l : Ledger) : Option Ledger :=
  match (if !is_lifecycle_state current_state then some "deleting_vm"
         else transition_state current_state "request_delete") with
  | none => none
  | some ns =>
    some (set_vm_state now group vm ns none none
      (capture_cleanup seed_ref cs cv).1 (capture_cleanup seed_ref cs cv).2 l)

/-- `ScalingService.request_vm_deletion(group, vm)`: read the persisted
record (or seed one through `ensure_vm_state`), then run the capture and
transition tail.  `seed_ref` stands for `proxmox.attached_seed_iso`
(`none` also covers its tolerated failure). -/
def request_vm_deletion (now : Int) (group : GroupConfig) (vm : VMInfo)
    (seed_ref : Option (String × String)) (l : Ledger) : Option Ledger :=
  match get_vm_state l vm.vmid with
  | some record =>
    request_vm_deletion_core now group vm seed_ref record.state
      record.cleanup_storage record.cleanup_volume l
  | none =>
    match ensure_vm_state now group vm l with
    | (st, l1) => request_vm_deletion_core now group vm seed_ref st none none l1

/-- A string passing `is_lifecycle_state` is one of the six state
literals. -/
theorem is_lifecycle_state_cases {s : String} (h : is_lifecycle_state s = true) :
    s = "pending" ∨ s = "active" ∨ s = "failed" ∨ s = "deleting_vm" ∨
      s = "deleting_iso" ∨ s = "deleting_node" := by
  have : s ∈ LIFECYCLE_STATES := by
    simpa [is_lifecycle_state] using h
  simpa [LIFECYCLE_STATES] using this

/-- A string passing `is_delete_state` is one of the three delete-state
literals. -/
theorem is_delete_state_cases {s : String} (h : is_delete_state s = true) :
    s = "deleting_vm" ∨ s = "deleting_iso" ∨ s = "deleting_node" := by
  have : s ∈ DELETE_STATES := by
    simpa [is_delete_state] using h
  simpa [DELETE_STATES] using this

/-- Delete states are lifecycle states. -/
theorem is_delete_state_lifecycle {s : String} (h : is_delete_state s = true) :
    is_lifecycle_state s = true := by
  rcases is_delete_state_cases h with rfl | rfl | rfl <;> decide

/-- From every lifecycle state, `request_delete` is legal and lands in a
delete state. -/
theorem lifecycle_request_delete {s : String} (h : is_lifecycle_state s = true) :
    ∃ u, transition_state s "request_delete" = some u ∧ is_delete_state u = true := by
  rcases is_lifecycle_state_cases h with rfl | rfl | rfl | rfl | rfl | rfl
  · exact ⟨"deleting_vm", by decide, by decide⟩
  · exact ⟨"deleting_vm", by decide, by decide⟩
  · exact ⟨"deleting_vm", by decide, by decide⟩
  · exact ⟨"deleting_vm", by decide, by decide⟩
  · exact ⟨"deleting_iso", by decide, by decide⟩
  · exact ⟨"deleting_node", by decide, by decide⟩

/-- A successful string-level transition decomposes through the typed
machine. -/
theorem transition_state_some_cases {s e u : String}
    (h : transition_state s e = some u) :
    ∃ st ev x, state_of_string s = some st ∧ event_of_string e = some ev ∧
      transition st ev = some x ∧ u = string_of_state x := by
  unfold transition_state at h
  split at h
  case _ st ev heq1 heq2 =>
    obtain ⟨x, hx, hux⟩ := Option.map_eq_some'.mp h
    exact ⟨st, ev, x, heq1, heq2, hx, hux.symm⟩
  case _ => cases h

/-- Only the typed `pending` prints as `"pending"`. -/
theorem string_of_state_ne_pending {x : LState} (hx : ¬x = LState.pending) :
    string_of_state x ≠ "pending" := by
  cases x
  · exact absurd rfl hx
  all_goals decide

/-- `request_delete` never lands in `pending` (string level). -/
theorem request_delete_not_pending {s u : String}
    (h : transition_state s "request_delete" = some u) : u ≠ "pending" := by
  obtain ⟨st, ev, x, hs, he, hx, rfl⟩ := transition_state_some_cases h
  have hev : ev = Event.request_delete := by
    rw [show event_of_string "request_delete" = some Event.request_delete from rfl] at he
    cases he
    rfl
  subst hev
  have key : ∀ (st x : LState), transition st .request_delete = some x → ¬x = .pending := by
    decide
  exact string_of_state_ne_pending (key st x hx)

/-- `infra_missing` never lands in `pending` (string level). -/
theorem infra_missing_not_pending {s u : String}
    (h : transition_state s "infra_missing" = some u) : u ≠ "pending" := by
  obtain ⟨st, ev, x, hs, he, hx, rfl⟩ := transition_state_some_cases h
  have hev : ev = Event.infra_missing := by
    rw [show event_of_string "infra_missing" = some Event.infra_missing from rfl] at he
    cases he
    rfl
  subst hev
  have key : ∀ (st x : LState), transition st .infra_missing = some x → ¬x = .pending := by
    decide
  exact string_of_state_ne_pending (key st x hx)

/-- No event leads from a delete state to `pending` (string level). -/
theorem from_delete_not_pending {s e u : String} (hs : is_delete_state s = true)
    (h : transition_state s e = some u) : u ≠ "pending" := by
  obtain ⟨st, ev, x, hst, he, hx, rfl⟩ := transition_state_some_cases h
  have hstv : st = LState.deleting_vm ∨ st = LState.deleting_iso ∨ st = LState.deleting_node := by
    rcases is_delete_state_cases hs with rfl | rfl | rfl <;>
      first
        | exact Or.inl (by cases hst; rfl)
        | exact Or.inr (Or.inl (by cases hst; rfl))
        | exact Or.inr (Or.inr (by cases hst; rfl))
  have key : ∀ (st : LState), (st = LState.deleting_vm ∨ st = LState.deleting_iso ∨
      st = LState.deleting_node) → ∀ (ev : Event) (x : LState),
      transition st ev = some x → ¬x = .pending := by
    decide
  exact string_of_state_ne_pending (key st hstv ev x hx)

/-- The seeded record written by `ensure_seed`, read back. -/
theorem ensure_seed_self (now : Int) (group : GroupConfig) (vm : VMInfo) (l : Ledger) :
    ∃ r', get_vm_state (ensure_seed now group vm l).2 vm.vmid = some r' ∧
      r'.group_id = group.id ∧ r'.vm_name = vm.name ∧
      r'.state = (if vm.status == "running" then "active" else "pending") ∧
      r'.pending_since = (if vm.status == "running" then (none : Option Int) else some now) ∧
      (ensure_seed now group vm l).1 = r'.state := by
  unfold ensure_seed
  by_cases h : (vm.status == "running") = true
  · simp only [h, if_pos]
    exact ⟨_, get_upsert_self l _, rfl, rfl, rfl, rfl, rfl⟩
  · simp only [h, if_neg, Bool.false_eq_true, if_false]
    exact ⟨_, get_upsert_self l _, rfl, rfl, rfl, rfl, rfl⟩

/-- `ensure_seed` touches only the key of the observed VM. -/
theorem ensure_seed_other (now : Int) (group : GroupConfig) (vm : VMInfo) (l : Ledger)
    (w : Nat) (hw : w ≠ vm.vmid) :
    get_vm_state (ensure_seed now group vm l).2 w = get_vm_state l w := by
  unfold ensure_seed
  by_cases h : (vm.status == "running") = true
  · simp only [h, if_pos]
    exact get_upsert_ne l _ w hw
  · simp only [h, Bool.false_eq_true, if_false]
    exact get_upsert_ne l _ w hw

/-- `ensure_vm_state` touches only the key of the observed VM. -/
theorem ensure_vm_state_other (now : Int) (group : GroupConfig) (vm : VMInfo) (l : Ledger)
    (w : Nat) (hw : w ≠ vm.vmid) :
    get_vm_state (ensure_vm_state now group vm l).2 w = get_vm_state l w := by
  unfold ensure_vm_state
  rcases hrec : get_vm_state l vm.vmid with _ | record
  · exact ensure_seed_other now group vm l w hw
  · by_cases hcond : (record.group_id == group.id && is_lifecycle_state record.state) = true
    · simp only [hcond, if_pos]
    · simp only [hcond, Bool.false_eq_true, if_false]
      exact ensure_seed_other now group vm l w hw

/-- A record persisted under this group with a legal lifecycle state is
left untouched by `ensure_vm_state`. -/
theorem ensure_vm_state_keeps (now : Int) (group : GroupConfig) (vm : VMInfo) (l : Ledger)
    (record : VMStateRecord) (hrec : get_vm_state l vm.vmid = some record)
    (hgid : record.group_id = group.id) (hlc : is_lifecycle_state record.state = true) :
    ensure_vm_state now group vm l = (record.state, l) := by
  unfold ensure_vm_state
  rw [hrec]
  exact if_pos (by simp [hgid, hlc])

/-- Behavior of the capture-and-transition tail of
`request_vm_deletion`: it always succeeds, the persisted row is the VM's
key under the calling group, `pending_since` is cleared, the new state is
a delete state — the FSM image of `request_delete` for lifecycle states
and the forced `deleting_vm` otherwise — and the cleanup columns hold the
captured reference.  Every other key is untouched. -/
theorem request_core_spec (now : Int) (group : GroupConfig) (vm : VMInfo)
    (seed_ref : Option (String × String)) (current_state : String)
    (cs cv : Option String) (l : Ledger) :
    ∃ l' r', request_vm_deletion_core now group vm seed_ref current_state cs cv l = some l' ∧
      get_vm_state l' vm.vmid = some r' ∧
      r'.group_id = group.id ∧ r'.pending_since = none ∧
      is_delete_state r'.state = true ∧
      (is_lifecycle_state current_state = true →
        transition_state current_state "request_delete" = some r'.state) ∧
      (is_lifecycle_state current_state = false → r'.state = "deleting_vm") ∧
      r'.cleanup_storage = (capture_cleanup seed_ref cs cv).1 ∧
      r'.cleanup_volume = (capture_cleanup seed_ref cs cv).2 ∧
      (∀ w, w ≠ vm.vmid → get_vm_state l' w = get_vm_state l w) := by
  by_cases hlc : is_lifecycle_state current_state = true
  · obtain ⟨u, hu, hdel⟩ := lifecycle_request_delete hlc
    have hstep : request_vm_deletion_core now group vm seed_ref current_state cs cv l =
        some (set_vm_state now group vm u none none (capture_cleanup seed_ref cs cv).1
          (capture_cleanup seed_ref cs cv).2 l) := by
      unfold request_vm_deletion_core
      rw [if_neg (by simp [hlc]), hu]
    refine ⟨_, _, hstep, get_upsert_self l _, rfl, rfl, hdel, fun _ => hu,
      fun hf => absurd hlc (by simp [hf]), rfl, rfl,
      fun w hw => get_upsert_ne l _ w hw⟩
  · have hstep : request_vm_deletion_core now group vm seed_ref current_state cs cv l =
        some (set_vm_state now group vm "deleting_vm" none none
          (capture_cleanup seed_ref cs cv).1 (capture_cleanup seed_ref cs cv).2 l) := by
      unfold request_vm_deletion_core
      rw [if_pos (by simp [hlc])]
    refine ⟨_, _, hstep, get_upsert_self l _, rfl, rfl, rfl,
      fun ht => absurd ht hlc, fun _ => rfl, rfl, rfl,
      fun w hw => get_upsert_ne l _ w hw⟩

/-- Unknown key: `ensure_vm_state` reduces to the seeding tail. -/
theorem ensure_vm_state_none (now : Int) (group : GroupConfig) (vm : VMInfo) (l : Ledger)
    (hrec : get_vm_state l vm.vmid = none) :
    ensure_vm_state now group vm l = ensure_seed now group vm l := by
  unfold ensure_vm_state
  rw [hrec]

/-- The state returned by the seeding tail. -/
theorem ensure_seed_fst (now : Int) (group : GroupConfig) (vm : VMInfo) (l : Ledger) :
    (ensure_seed now group vm l).1 =
      (if vm.status == "running" then "active" else "pending") := by
  unfold ensure_seed
  by_cases h : (vm.status == "running") = true
  · rw [if_pos h, if_pos h]
  · rw [if_neg h, if_neg h]

/-- Full behavior of `ScalingService.request_vm_deletion`: it never
raises `InvalidTransition`, the VM's row ends under this group in a
delete state with `pending_since` cleared and the captured cleanup
reference, per the FSM for persisted lifecycle states and forced to
`deleting_vm` otherwise; other rows are untouched. -/
theorem request_vm_deletion_spec (now : Int) (group : GroupConfig) (vm : VMInfo)
    (seed_ref : Option (String × String)) (l : Ledger) :
    ∃ l' r', request_vm_deletion now group vm seed_ref l = some l' ∧
      get_vm_state l' vm.vmid = some r' ∧
      r'.group_id = group.id ∧ r'.pending_since = none ∧
      is_delete_state r'.state = true ∧
      (∀ record, get_vm_state l vm.vmid = some record →
        (is_lifecycle_state record.state = true →
          transition_state record.state "request_delete" = some r'.state) ∧
        (is_lifecycle_state record.state = false → r'.state = "deleting_vm") ∧
        r'.cleanup_storage =
          (capture_cleanup seed_ref record.cleanup_storage record.cleanup_volume).1 ∧
        r'.cleanup_volume =
          (capture_cleanup seed_ref record.cleanup_storage record.cleanup_volume).2) ∧
      (get_vm_state l vm.vmid = none →
        r'.state = "deleting_vm" ∧
        r'.cleanup_storage = (capture_cleanup seed_ref none none).1 ∧
        r'.cleanup_volume = (capture_cleanup seed_ref none none).2) ∧
      (∀ w, w ≠ vm.vmid → get_vm_state l' w = get_vm_state l w) := by
  rcases hrec : get_vm_state l vm.vmid with _ | record
  · obtain ⟨l', r', hstep, hget, hgid, hps, hdel, h1, h2, hcs, hcv, hother⟩ :=
      request_core_spec now group vm seed_ref (ensure_vm_state now group vm l).1
        none none (ensure_vm_state now group vm l).2
    have hrun : request_vm_deletion now group vm seed_ref l = some l' := by
      unfold request_vm_deletion
      rw [hrec]
      exact hstep
    have hfst : (ensure_vm_state now group vm l).1 =
        (if vm.status == "running" then "active" else "pending") := by
      rw [ensure_vm_state_none now group vm l hrec, ensure_seed_fst]
    have hcase : (ensure_vm_state now group vm l).1 = "active" ∨
        (ensure_vm_state now group vm l).1 = "pending" := by
      rw [hfst]
      by_cases h : (vm.status == "running") = true
      · rw [if_pos h]
        exact Or.inl rfl
      · rw [if_neg h]
        exact Or.inr rfl
    have hens : is_lifecycle_state (ensure_vm_state now group vm l).1 = true := by
      rcases hcase with hv | hv <;> rw [hv] <;> rfl
    refine ⟨l', r', hrun, hget, hgid, hps, hdel, ?_, ?_, ?_⟩
    · intro record2 hrec2
      cases hrec2
    · intro _
      have hu := h1 hens
      refine ⟨?_, hcs, hcv⟩
      rcases hcase with hv | hv
      · rw [hv, show transition_state "active" "request_delete" = some "deleting_vm" from by
          decide] at hu
        exact (Option.some_inj.mp hu).symm
      · rw [hv, show transition_state "pending" "request_delete" = some "deleting_vm" from by
          decide] at hu
        exact (Option.some_inj.mp hu).symm
    · intro w hw
      rw [hother w hw]
      exact ensure_vm_state_other now group vm l w hw
  · obtain ⟨l', r', hstep, hget, hgid, hps, hdel, h1, h2, hcs, hcv, hother⟩ :=
      request_core_spec now group vm seed_ref record.state
        record.cleanup_storage record.cleanup_volume l
    have hrun : request_vm_deletion now group vm seed_ref l = some l' := by
      unfold request_vm_deletion
      rw [hrec]
      exact hstep
    refine ⟨l', r', hrun, hget, hgid, hps, hdel, ?_, ?_, hother⟩
    · intro record2 hrec2
      injection hrec2 with heq
      subst heq
      exact ⟨h1, h2, hcs, hcv⟩
    · intro hnone
      cases hnone

/-- C10: `request_vm_deletion` never raises `InvalidTransition`: for a
persisted lifecycle state it applies the `request_delete` FSM transition,
for any other persisted state string it forces the record straight to
`deleting_vm`, and in both cases (as well as for an unknown VM, seeded
first) it persists the record with `pending_since` null and the captured
cleanup reference. -/
theorem request_vm_deletion_never_invalid (now : Int) (group : GroupConfig) (vm : VMInfo)
    (seed_ref : Option (String × String)) (l : Ledger) :
    ∃ l' r', request_vm_deletion now group vm seed_ref l = some l' ∧
      get_vm_state l' vm.vmid = some r' ∧
      r'.pending_since = none ∧
      is_delete_state r'.state = true ∧
      (∀ record, get_vm_state l vm.vmid = some record →
        (is_lifecycle_state record.state = true →
          transition_state record.state "request_delete" = some r'.state) ∧
        (is_lifecycle_state record.state = false → r'.state = "deleting_vm") ∧
        r'.cleanup_storage =
          (capture_cleanup seed_ref record.cleanup_storage record.cleanup_volume).1 ∧
        r'.cleanup_volume =
          (capture_cleanup seed_ref record.cleanup_storage record.cleanup_volume).2) := by
  obtain ⟨l', r', hrun, hget, _, hps, hdel, hcases, _, _⟩ :=
    request_vm_deletion_spec now group vm seed_ref l
  exact ⟨l', r', hrun, hget, hps, hdel, hcases⟩

/-- Witness for C10: a VM whose persisted state is the junk string
`"weird"` is forced to `deleting_vm` without an `InvalidTransition`. -/
theorem request_vm_deletion_never_invalid_witness :
    ∃ l' r', request_vm_deletion 9 (GroupConfig.mk "g" 0 5) (VMInfo.mk 101 "n" "running" [])
        none [VMStateRecord.mk 101 "g" "n" "weird" none 0 none none none] = some l' ∧
      get_vm_state l' (VMInfo.mk 101 "n" "running" []).vmid = some r' ∧
      r'.pending_since = none ∧
      is_delete_state r'.state = true ∧
      (∀ record, get_vm_state [VMStateRecord.mk 101 "g" "n" "weird" none 0 none none none]
          (VMInfo.mk 101 "n" "running" []).vmid = some record →
        (is_lifecycle_state record.state = true →
          transition_state record.state "request_delete" = some r'.state) ∧
        (is_lifecycle_state record.state = false → r'.state = "deleting_vm") ∧
        r'.cleanup_storage =
          (capture_cleanup none record.cleanup_storage record.cleanup_volume).1 ∧
        r'.cleanup_volume =
          (capture_cleanup none record.cleanup_storage record.cleanup_volume).2) :=
  request_vm_deletion_never_invalid 9 (GroupConfig.mk "g" 0 5)
    (VMInfo.mk 101 "n" "running" []) none
    [VMStateRecord.mk 101 "g" "n" "weird" none 0 none none none]

/-- C5 counterexample: a record persisted under group `groupA` and
observed by `ensure_vm_state` under group `groupB` is re-seeded: its
persisted `group_id` changes from `groupA` to `groupB`, so the existing
record does not win. -/
theorem ensure_vm_state_rebinds_counterexample :
    (get_vm_state [VMStateRecord.mk 101 "groupA" "ca-a-101" "pending" (some 1) 0 none none none]
        101).map (fun r => r.group_id) = some "groupA" ∧
    (get_vm_state
        (ensure_vm_state 5 (GroupConfig.mk "groupB" 0 5) (VMInfo.mk 101 "ca-a-101" "running" [])
          [VMStateRecord.mk 101 "groupA" "ca-a-101" "pending" (some 1) 0 none none none]).2
        101).map (fun r => r.group_id) = some "groupB" := by
  decide

/-- C5 (amended): `ensure_vm_state` keeps the existing record (and its
`group_id`) only when the record's `group_id` equals the calling group's
id and its state is a legal lifecycle state; otherwise — in particular
when the same vmid is observed under a different group — it re-seeds the
record under the calling group, rebinding `group_id`. -/
theorem ensure_vm_state_group_binding (now : Int) (group : GroupConfig) (vm : VMInfo)
    (l : Ledger) (r : VMStateRecord) (h : get_vm_state l vm.vmid = some r) :
    (r.group_id = group.id → is_lifecycle_state r.state = true →
      ensure_vm_state now group vm l = (r.state, l)) ∧
    ((¬r.group_id = group.id ∨ is_lifecycle_state r.state = false) →
      ∃ r', get_vm_state (ensure_vm_state now group vm l).2 vm.vmid = some r' ∧
        r'.group_id = group.id ∧
        r'.state = (if vm.status == "running" then "active" else "pending")) := by
  constructor
  · intro h1 h2
    exact ensure_vm_state_keeps now group vm l r h h1 h2
  · intro hcase
    have hcond : ¬(r.group_id == group.id && is_lifecycle_state r.state) = true := by
      rcases hcase with hc | hc <;> simp [hc]
    have hred : ensure_vm_state now group vm l = ensure_seed now group vm l := by
      unfold ensure_vm_state
      rw [h]
      exact if_neg hcond
    rw [hred]
    obtain ⟨r', hget, hgid, _, hstate, _, _⟩ := ensure_seed_self now group vm l
    exact ⟨r', hget, hgid, hstate⟩

/-- Witness for C5's amended theorem: the record of VM 101 persisted
under `"g"` in state `active`, observed again under `"g"`. -/
theorem ensure_vm_state_group_binding_witness :
    ((VMStateRecord.mk 101 "g" "n" "active" none 0 none none none).group_id =
        (GroupConfig.mk "g" 0 5).id →
      is_lifecycle_state (VMStateRecord.mk 101 "g" "n" "active" none 0 none none none).state =
        true →
      ensure_vm_state 3 (GroupConfig.mk "g" 0 5) (VMInfo.mk 101 "n" "running" [])
          [VMStateRecord.mk 101 "g" "n" "active" none 0 none none none] =
        ((VMStateRecord.mk 101 "g" "n" "active" none 0 none none none).state,
          [VMStateRecord.mk 101 "g" "n" "active" none 0 none none none])) ∧
    ((¬(VMStateRecord.mk 101 "g" "n" "active" none 0 none none none).group_id =
          (GroupConfig.mk "g" 0 5).id ∨
        is_lifecycle_state
            (VMStateRecord.mk 101 "g" "n" "active" none 0 none none none).state = false) →
      ∃ r', get_vm_state
          (ensure_vm_state 3 (GroupConfig.mk "g" 0 5) (VMInfo.mk 101 "n" "running" [])
            [VMStateRecord.mk 101 "g" "n" "active" none 0 none none none]).2 101 = some r' ∧
        r'.group_id = (GroupConfig.mk "g" 0 5).id ∧
        r'.state =
          (if (VMInfo.mk 101 "n" "running" []).status == "running" then "active"
            else "pending")) :=
  ensure_vm_state_group_binding 3 (GroupConfig.mk "g" 0 5) (VMInfo.mk 101 "n" "running" [])
    [VMStateRecord.mk 101 "g" "n" "active" none 0 none none none]
    (VMStateRecord.mk 101 "g" "n" "active" none 0 none none none) (by decide)

/-! ## Reconcile-loop writes (services/reconcile_service.py) -/

/-- `DeleteStepOutcome` from services/reconcile_service.py. -/
structure DeleteStepOutcome where
  event : String
  last_error : Option String
  cleanup_storage : Option String := none
  cleanup_volume : Option String := none
deriving DecidableEq, Repr

/-- `_persist_delete_state(...)`: upsert the record under the calling
group with `pending_since = None`; absent cleanup arguments keep the
record's stored values. -/
def persist_delete_state (now : Int) (group : GroupConfig) (record : VMStateRecord)
    (state : String) (last_error cs cv : Option String) (l : Ledger) : Ledger :=
  upsert_vm_state l
    ⟨record.vmid, group.id, record.vm_name, state, none, now, last_error,
      (match cs with | none => record.cleanup_storage | some s => some s),
      (match cv with | none => record.cleanup_volume | some v => some v)⟩

/-- `_progress_delete_state(group, record, vm)` given the step's outcome:
transition, delete the row on `completed`, otherwise persist; a
`transition_state` raise (modelled `none`) escapes before any write. -/
def progress_delete_state (now : Int) (group : GroupConfig) (record : VMStateRecord)
    (outcome : DeleteStepOutcome) (l : Ledger) : Ledger :=
  match transition_state record.state outcome.event with
  | none => l
  | some next_state =>
    if next_state == "completed" then delete_vm_state l record.vmid
    else persist_delete_state now group record next_state outcome.last_error
      outcome.cleanup_storage outcome.cleanup_volume l

/-- One record of `_reconcile_missing_vm_records` whose vmid is absent
from the inventory snapshot: drop non-lifecycle records, apply
`infra_missing`, drop on `completed`, else persist. -/
def reconcile_missing_record (now : Int) (group : GroupConfig) (record : VMStateRecord)
    (l : Ledger) : Ledger :=
  if !is_lifecycle_state record.state then delete_vm_state l record.vmid
  else
    match transition_state record.state "infra_missing" with
    | none => l
    | some next_state =>
      if next_state == "completed" then delete_vm_state l record.vmid
      else persist_delete_state now group record next_state none none none l

/-- The demotion write of the observation pass: an `active` record whose
VM is not running becomes `pending` with `pending_since = now` and
`last_error = "vm not running"`. -/
def reconcile_demote (now : Int) (group : GroupConfig) (vm : VMInfo) (l : Ledger) : Ledger :=
  match transition_state "active" "became_pending" with
  | some st => set_vm_state now group vm st (some now) (some "vm not running") none none l
  | none => l

/-- The observation pass's repair write when a `pending` record has no
`pending_since`: re-persist `pending` with `pending_since = now`. -/
def reconcile_mark_pending (now : Int) (group : GroupConfig) (vm : VMInfo) (l : Ledger) :
    Ledger :=
  set_vm_state now group vm "pending" (some now) none none none l

/-- The promotion write: a ready `pending` VM becomes `active` with
`pending_since` and `last_error` cleared. -/
def reconcile_promote (now : Int) (group : GroupConfig) (vm : VMInfo) (l : Ledger) : Ledger :=
  match transition_state "pending" "became_active" with
  | some st => set_vm_state now group vm st none none none none l
  | none => l

/-- The creation write of the convergence step: a newly created VM's
record is persisted as `pending` with `pending_since = now`. -/
def reconcile_create_record (now : Int) (group : GroupConfig) (vm : VMInfo) (l : Ledger) :
    Ledger :=
  set_vm_state now group vm "pending" (some now) none none none l

/-- Every ledger mutation of the orchestrator named by the spec's
invariant 1: `ensure_vm_state` seeding, the delete request, the
observation pass's promotion/demotion/repair, VM-creation persistence,
the delete-pipeline pass (guarded by `is_delete_state` as in
`reconcile_group`), and the orphan-record pass. -/
inductive Mutation where
  | ensure (now : Int) (group : GroupConfig) (vm : VMInfo)
  | request_delete (now : Int) (group : GroupConfig) (vm : VMInfo)
      (seed_ref : Option (String × String))
  | promote (now : Int) (group : GroupConfig) (vm : VMInfo)
  | demote (now : Int) (group : GroupConfig) (vm : VMInfo)
  | mark_pending (now : Int) (group : GroupConfig) (vm : VMInfo)
  | create (now : Int) (group : GroupConfig) (vm : VMInfo)
  | pipeline (now : Int) (group : GroupConfig) (record : VMStateRecord)
      (outcome : DeleteStepOutcome)
  | orphan (now : Int) (group : GroupConfig) (record : VMStateRecord)

/-- Interpretation of each mutation on the ledger (a `request_delete`
whose transition raises leaves the ledger as it was, since the exception
escapes before the write). -/
def apply_mutation : Mutation → Ledger → Ledger
  | .ensure now g vm, l => (ensure_vm_state now g vm l).2
  | .request_delete now g vm sr, l => (request_vm_deletion now g vm sr l).getD l
  | .promote now g vm, l => reconcile_promote now g vm l
  | .demote now g vm, l => reconcile_demote now g vm l
  | .mark_pending now g vm, l => reconcile_mark_pending now g vm l
  | .create now g vm, l => reconcile_create_record now g vm l
  | .pipeline now g r o, l =>
    if is_delete_state r.state then progress_delete_state now g r o l else l
  | .orphan now g r, l => reconcile_missing_record now g r l

/-- Spec invariant 1: every persisted `pending` record has a
`pending_since`. -/
def PendingInv (l : Ledger) : Prop :=
  ∀ r ∈ l, r.state = "pending" → r.pending_since ≠ none

/-- Upserting a row that itself satisfies the pending invariant preserves
it. -/
theorem pendingInv_upsert {l : Ledger} {r : VMStateRecord} (hl : PendingInv l)
    (hr : r.state = "pending" → r.pending_since ≠ none) :
    PendingInv (upsert_vm_state l r) := by
  induction l with
  | nil =>
    intro x hx
    rw [show upsert_vm_state [] r = [r] from rfl, List.mem_singleton] at hx
    subst hx
    exact hr
  | cons y ys ih =>
    intro x hx
    rw [upsert_vm_state] at hx
    by_cases h : (y.vmid == r.vmid) = true
    · rw [if_pos h] at hx
      rcases List.mem_cons.mp hx with rfl | hx'
      · exact hr
      · exact hl x (List.mem_cons_of_mem _ hx')
    · rw [if_neg h] at hx
      rcases List.mem_cons.mp hx with rfl | hx'
      · exact hl x (List.mem_cons_self _ _)
      · exact ih (fun z hz => hl z (List.mem_cons_of_mem _ hz)) x hx'

/-- Deleting a row preserves the pending invariant. -/
theorem pendingInv_delete {l : Ledger} (hl : PendingInv l) (vmid : Nat) :
    PendingInv (delete_vm_state l vmid) := by
  intro x hx
  exact hl x (List.mem_filter.mp hx).1

/-- `ensure_vm_state` preserves the pending invariant. -/
theorem pendingInv_ensure (now : Int) (g : GroupConfig) (vm : VMInfo) {l : Ledger}
    (h : PendingInv l) : PendingInv (ensure_vm_state now g vm l).2 := by
  unfold ensure_vm_state
  rcases hrec : get_vm_state l vm.vmid with _ | record
  · unfold ensure_seed
    by_cases hs : (vm.status == "running") = true
    · simp only [hs, if_pos]
      exact pendingInv_upsert h (fun hc => by simp at hc)
    · simp only [hs, Bool.false_eq_true, if_false]
      exact pendingInv_upsert h (fun _ => by simp)
  · by_cases hcond : (record.group_id == g.id && is_lifecycle_state record.state) = true
    · simp only [hcond, if_pos]
      exact h
    · simp only [hcond, Bool.false_eq_true, if_false]
      unfold ensure_seed
      by_cases hs : (vm.status == "running") = true
      · simp only [hs, if_pos]
        exact pendingInv_upsert h (fun hc => by simp at hc)
      · simp only [hs, Bool.false_eq_true, if_false]
        exact pendingInv_upsert h (fun _ => by simp)

/-- The capture-and-transition tail of `request_vm_deletion` preserves
the pending invariant: the state it persists is never `pending`. -/
theorem pendingInv_request_core (now : Int) (g : GroupConfig) (vm : VMInfo)
    (sr : Option (String × String)) (cur : String) (cs cv : Option String) {l : Ledger}
    (h : PendingInv l) {l' : Ledger}
    (hrun : request_vm_deletion_core now g vm sr cur cs cv l = some l') :
    PendingInv l' := by
  unfold request_vm_deletion_core at hrun
  by_cases hlc : is_lifecycle_state cur = true
  · rw [if_neg (by simp [hlc])] at hrun
    rcases ht : transition_state cur "request_delete" with _ | ns
    · rw [ht] at hrun
      cases hrun
    · rw [ht] at hrun
      injection hrun with heq
      subst heq
      exact pendingInv_upsert h (fun hp => absurd hp (request_delete_not_pending ht))
  · rw [if_pos (by simp [hlc])] at hrun
    injection hrun with heq
    subst heq
    exact pendingInv_upsert h (fun hc => by simp at hc)

/-- C2: every ledger mutation of the orchestrator — `ensure_vm_state`
seeding, delete requests, the reconcile loop's promotion, demotion and
pending repair, VM-creation persistence, the delete pipeline and the
orphan pass — preserves invariant 1: a persisted record in state
`pending` always carries a non-null `pending_since`. -/
theorem pending_invariant_preserved (m : Mutation) (l : Ledger) (h : PendingInv l) :
    PendingInv (apply_mutation m l) := by
  cases m with
  | ensure now g vm =>
    exact pendingInv_ensure now g vm h
  | request_delete now g vm sr =>
    show PendingInv ((request_vm_deletion now g vm sr l).getD l)
    rcases hrun : request_vm_deletion now g vm sr l with _ | l'
    · rw [Option.getD_none]
      exact h
    · rw [Option.getD_some]
      unfold request_vm_deletion at hrun
      rcases hrec : get_vm_state l vm.vmid with _ | record
      · rw [hrec] at hrun
        exact pendingInv_request_core now g vm sr _ none none
          (pendingInv_ensure now g vm h) hrun
      · rw [hrec] at hrun
        exact pendingInv_request_core now g vm sr record.state
          record.cleanup_storage record.cleanup_volume h hrun
  | promote now g vm =>
    show PendingInv (reconcile_promote now g vm l)
    unfold reconcile_promote
    rw [show transition_state "pending" "became_active" = some "active" from by decide]
    exact pendingInv_upsert h (fun hc => by simp at hc)
  | demote now g vm =>
    show PendingInv (reconcile_demote now g vm l)
    unfold reconcile_demote
    rw [show transition_state "active" "became_pending" = some "pending" from by decide]
    exact pendingInv_upsert h (fun _ => by simp)
  | mark_pending now g vm =>
    exact pendingInv_upsert h (fun _ => by simp)
  | create now g vm =>
    exact pendingInv_upsert h (fun _ => by simp)
  | pipeline now g r o =>
    show PendingInv (if is_delete_state r.state then
      progress_delete_state now g r o l else l)
    by_cases hds : is_delete_state r.state = true
    · rw [if_pos hds]
      unfold progress_delete_state
      rcases ht : transition_state r.state o.event with _ | next_state
      · exact h
      · show PendingInv (if (next_state == "completed") = true then delete_vm_state l r.vmid
          else persist_delete_state now g r next_state o.last_error o.cleanup_storage
            o.cleanup_volume l)
        by_cases hc : (next_state == "completed") = true
        · rw [if_pos hc]
          exact pendingInv_delete h r.vmid
        · rw [if_neg hc]
          exact pendingInv_upsert h
            (fun hp => absurd hp (from_delete_not_pending hds ht))
    · rw [if_neg hds]
      exact h
  | orphan now g r =>
    show PendingInv (reconcile_missing_record now g r l)
    unfold reconcile_missing_record
    by_cases hlc : is_lifecycle_state r.state = true
    · rw [if_neg (by simp [hlc])]
      rcases ht : transition_state r.state "infra_missing" with _ | next_state
      · exact h
      · show PendingInv (if (next_state == "completed") = true then delete_vm_state l r.vmid
          else persist_delete_state now g r next_state none none none l)
        by_cases hc : (next_state == "completed") = true
        · rw [if_pos hc]
          exact pendingInv_delete h r.vmid
        · rw [if_neg hc]
          exact pendingInv_upsert h
            (fun hp => absurd hp (infra_missing_not_pending ht))
    · rw [if_pos (by simp [hlc])]
      exact pendingInv_delete h r.vmid

/-- Witness for C2: seeding a not-running VM into the empty ledger keeps
the invariant (and stores `pending` with `pending_since = 7`). -/
theorem pending_invariant_preserved_witness :
    PendingInv (apply_mutation
      (Mutation.ensure 7 (GroupConfig.mk "g" 0 5) (VMInfo.mk 101 "vm" "stopped" [])) []) :=
  pending_invariant_preserved
    (Mutation.ensure 7 (GroupConfig.mk "g" 0 5) (VMInfo.mk 101 "vm" "stopped" [])) []
    (fun r hr => absurd hr (List.not_mem_nil r))

/-- Result of `proxmox.delete_storage_volume`: success, an
`httpx.HTTPStatusError` with its status code, or any other exception. -/
inductive VolDeleteResult where
  | ok
  | http_error (code : Nat) (msg : String)
  | other_error (msg : String)
deriving DecidableEq, Repr

/-- `_step_delete_iso(record)` from services/reconcile_service.py: when
both cleanup references are truthy, delete the storage volume — a non-404
HTTP error or any other exception yields `iso_retry` with the failure in
`last_error`; success, a 404, or a missing reference yields `iso_done`
with `last_error` cleared.  The outcome always carries the stored cleanup
reference. -/
def step_delete_iso (record : VMStateRecord) (res : VolDeleteResult) : DeleteStepOutcome :=
  if truthy record.cleanup_storage && truthy record.cleanup_volume then
    match res with
    | .ok =>
      ⟨"iso_done", none, record.cleanup_storage, record.cleanup_volume⟩
    | .http_error code msg =>
      if code ≠ 404 then
        ⟨"iso_retry", some ("delete iso failed: " ++ msg),
          record.cleanup_storage, record.cleanup_volume⟩
      else ⟨"iso_done", none, record.cleanup_storage, record.cleanup_volume⟩
    | .other_error msg =>
      ⟨"iso_retry", some ("delete iso failed: " ++ msg),
        record.cleanup_storage, record.cleanup_volume⟩
  else ⟨"iso_done", none, record.cleanup_storage, record.cleanup_volume⟩

/-- When the transition target is not `completed`, the pipeline persists
it with the outcome's error and cleanup fields. -/
theorem progress_delete_state_eq (now : Int) (group : GroupConfig)
    (record : VMStateRecord) (outcome : DeleteStepOutcome) (l : Ledger)
    (next_state : String)
    (ht : transition_state record.state outcome.event = some next_state)
    (hnc : (next_state == "completed") = false) :
    progress_delete_state now group record outcome l =
      persist_delete_state now group record next_state outcome.last_error
        outcome.cleanup_storage outcome.cleanup_volume l := by
  unfold progress_delete_state
  rw [ht]
  exact if_neg (by simp [hnc])

/-- C6: for a record in `deleting_iso` processed by one delete-pipeline
step — when both cleanup references are known and `delete_storage_volume`
fails with an HTTP status other than 404, the record stays in
`deleting_iso` with `last_error` set to the failure message (`iso_retry`);
when the call succeeds, fails with a 404, or the cleanup reference is
missing, the record moves to `deleting_node` with `last_error` cleared
(`iso_done`). -/
theorem delete_iso_step_behavior (now : Int) (group : GroupConfig)
    (record : VMStateRecord) (res : VolDeleteResult) (l : Ledger)
    (hstate : record.state = "deleting_iso") :
    (∀ code msg, truthy record.cleanup_storage = true →
      truthy record.cleanup_volume = true →
      res = .http_error code msg → code ≠ 404 →
      ∃ r', get_vm_state
          (progress_delete_state now group record (step_delete_iso record res) l)
          record.vmid = some r' ∧
        r'.state = "deleting_iso" ∧
        r'.last_error = some ("delete iso failed: " ++ msg)) ∧
    ((res = .ok ∨ (∃ msg, res = .http_error 404 msg) ∨
        truthy record.cleanup_storage = false ∨ truthy record.cleanup_volume = false) →
      ∃ r', get_vm_state
          (progress_delete_state now group record (step_delete_iso record res) l)
          record.vmid = some r' ∧
        r'.state = "deleting_node" ∧ r'.last_error = none) := by
  have hretry : transition_state "deleting_iso" "iso_retry" = some "deleting_iso" := by
    decide
  have hdone : transition_state "deleting_iso" "iso_done" = some "deleting_node" := by
    decide
  constructor
  · intro code msg hcs hcv hres hcode
    subst hres
    have hout : step_delete_iso record (.http_error code msg) =
        ⟨"iso_retry", some ("delete iso failed: " ++ msg),
          record.cleanup_storage, record.cleanup_volume⟩ := by
      simp [step_delete_iso, hcs, hcv, hcode]
    rw [hout,
      progress_delete_state_eq now group record _ l "deleting_iso"
        (by rw [hstate]; exact hretry) (by decide)]
    exact ⟨_, get_upsert_self l _, rfl, rfl⟩
  · intro hcase
    have hout : step_delete_iso record res =
        ⟨"iso_done", none, record.cleanup_storage, record.cleanup_volume⟩ := by
      rcases hcase with rfl | ⟨msg, rfl⟩ | hcs | hcv
      · by_cases hk : (truthy record.cleanup_storage && truthy record.cleanup_volume) = true
        · simp [step_delete_iso, hk]
        · simp [step_delete_iso, hk]
      · by_cases hk : (truthy record.cleanup_storage && truthy record.cleanup_volume) = true
        · simp [step_delete_iso, hk]
        · simp [step_delete_iso, hk]
      · simp [step_delete_iso, hcs]
      · simp [step_delete_iso, hcv]
    rw [hout,
      progress_delete_state_eq now group record _ l "deleting_node"
        (by rw [hstate]; exact hdone) (by decide)]
    exact ⟨_, get_upsert_self l _, rfl, rfl⟩

/-- Witness for C6: a `deleting_iso` record with a known cleanup
reference and a 500 from `delete_storage_volume`. -/
theorem delete_iso_step_behavior_witness :
    (∀ code msg,
      truthy (VMStateRecord.mk 101 "g" "n" "deleting_iso" none 0 none (some "local")
          (some "iso/seed-n.iso")).cleanup_storage = true →
      truthy (VMStateRecord.mk 101 "g" "n" "deleting_iso" none 0 none (some "local")
          (some "iso/seed-n.iso")).cleanup_volume = true →
      VolDeleteResult.http_error 500 "boom" = .http_error code msg → code ≠ 404 →
      ∃ r', get_vm_state
          (progress_delete_state 3 (GroupConfig.mk "g" 0 5)
            (VMStateRecord.mk 101 "g" "n" "deleting_iso" none 0 none (some "local")
              (some "iso/seed-n.iso"))
            (step_delete_iso
              (VMStateRecord.mk 101 "g" "n" "deleting_iso" none 0 none (some "local")
                (some "iso/seed-n.iso"))
              (VolDeleteResult.http_error 500 "boom")) [])
          (VMStateRecord.mk 101 "g" "n" "deleting_iso" none 0 none (some "local")
            (some "iso/seed-n.iso")).vmid = some r' ∧
        r'.state = "deleting_iso" ∧
        r'.last_error = some ("delete iso failed: " ++ msg)) ∧
    ((VolDeleteResult.http_error 500 "boom" = .ok ∨
        (∃ msg, VolDeleteResult.http_error 500 "boom" = .http_error 404 msg) ∨
        truthy (VMStateRecord.mk 101 "g" "n" "deleting_iso" none 0 none (some "local")
            (some "iso/seed-n.iso")).cleanup_storage = false ∨
        truthy (VMStateRecord.mk 101 "g" "n" "deleting_iso" none 0 none (some "local")
            (some "iso/seed-n.iso")).cleanup_volume = false) →
      ∃ r', get_vm_state
          (progress_delete_state 3 (GroupConfig.mk "g" 0 5)
            (VMStateRecord.mk 101 "g" "n" "deleting_iso" none 0 none (some "local")
              (some "iso/seed-n.iso"))
            (step_delete_iso
              (VMStateRecord.mk 101 "g" "n" "deleting_iso" none 0 none (some "local")
                (some "iso/seed-n.iso"))
              (VolDeleteResult.http_error 500 "boom")) [])
          (VMStateRecord.mk 101 "g" "n" "deleting_iso" none 0 none (some "local")
            (some "iso/seed-n.iso")).vmid = some r' ∧
        r'.state = "deleting_node" ∧ r'.last_error = none) :=
  delete_iso_step_behavior 3 (GroupConfig.mk "g" 0 5)
    (VMStateRecord.mk 101 "g" "n" "deleting_iso" none 0 none (some "local")
      (some "iso/seed-n.iso"))
    (VolDeleteResult.http_error 500 "boom") [] rfl

/-! ## Shrink policy (`ScalingService.shrink_to_desired`) -/

/-- First component of the Python sort key
`(0 if state == pending else 1, -vmid)`. -/
def shrink_rank (c : VMInfo × String) : Nat :=
  if c.2 == "pending" then 0 else 1

/-- The ascending order on the Python sort key: rank first, then vmid
descending. -/
def shrink_key_le (a b : VMInfo × String) : Prop :=
  shrink_rank a < shrink_rank b ∨ (shrink_rank a = shrink_rank b ∧ b.1.vmid ≤ a.1.vmid)

instance : DecidableRel shrink_key_le := fun a b => by
  unfold shrink_key_le
  infer_instance

instance : IsTotal (VMInfo × String) shrink_key_le := by
  refine ⟨fun a b => ?_⟩
  unfold shrink_key_le
  rcases Nat.lt_trichotomy (shrink_rank a) (shrink_rank b) with h | h | h
  · exact Or.inl (Or.inl h)
  · rcases Nat.le_total (b.1.vmid) (a.1.vmid) with hv | hv
    · exact Or.inl (Or.inr ⟨h, hv⟩)
    · exact Or.inr (Or.inr ⟨h.symm, hv⟩)
  · exact Or.inr (Or.inl h)

instance : IsTrans (VMInfo × String) shrink_key_le := by
  refine ⟨fun a b c hab hbc => ?_⟩
  unfold shrink_key_le at *
  rcases hab with h1 | ⟨h1, h1v⟩ <;> rcases hbc with h2 | ⟨h2, h2v⟩
  · exact Or.inl (h1.trans h2)
  · exact Or.inl (h2 ▸ h1)
  · exact Or.inl (h1 ▸ h2)
  · exact Or.inr ⟨h1.trans h2, h2v.trans h1v⟩

/-- `shrink_to_desired(group, candidates, desired)`: the ordered victim
list — `sorted(candidates, key=...)[:remove_count]` — the VMs deletion is
requested for; empty when `len(candidates) <= desired`. -/
def shrink_victims (candidates : List (VMInfo × String)) (desired : Int) :
    List (VMInfo × String) :=
  if (candidates.length : Int) ≤ desired then []
  else (List.insertionSort shrink_key_le candidates).take
    ((candidates.length : Int) - desired).toNat

/-- C7: with `desired ≥ 0`, `shrink_to_desired` requests no deletion when
there are at most `desired` candidates, and otherwise requests deletion
for exactly `len - desired` VMs: the first `len - desired` elements of an
ordering of the candidates that puts `pending` before `active` and, within
the same state preference, larger (newer) vmids first. -/
theorem shrink_to_desired_policy (candidates : List (VMInfo × String)) (desired : Int)
    (hd : 0 ≤ desired) :
    ((candidates.length : Int) ≤ desired → shrink_victims candidates desired = []) ∧
    (desired < (candidates.length : Int) →
      (shrink_victims candidates desired).length =
        ((candidates.length : Int) - desired).toNat ∧
      ∃ ordered : List (VMInfo × String),
        ordered.Perm candidates ∧ ordered.Sorted shrink_key_le ∧
        shrink_victims candidates desired =
          ordered.take ((candidates.length : Int) - desired).toNat) := by
  constructor
  · intro hle
    unfold shrink_victims
    rw [if_pos hle]
  · intro hlt
    have hno : ¬((candidates.length : Int) ≤ desired) := not_le.mpr hlt
    have hdef : shrink_victims candidates desired =
        (List.insertionSort shrink_key_le candidates).take
          ((candidates.length : Int) - desired).toNat := by
      unfold shrink_victims
      rw [if_neg hno]
    refine ⟨?_, List.insertionSort shrink_key_le candidates,
      List.perm_insertionSort _ _, List.sorted_insertionSort _ _, hdef⟩
    rw [hdef, List.length_take, List.length_insertionSort]
    refine Nat.min_eq_left ?_
    have h1 : (candidates.length : Int) - desired ≤ (candidates.length : Int) := by
      omega
    omega

/-- Witness for C7: three candidates, desired 1 — the victims are the
first two of a sorted ordering: the pending VM, then the newer active
VM. -/
theorem shrink_to_desired_policy_witness :
    ((3 : Int) ≤ 1 →
      shrink_victims [(VMInfo.mk 7 "a" "running" [], "active"),
        (VMInfo.mk 9 "b" "running" [], "active"),
        (VMInfo.mk 8 "c" "stopped" [], "pending")] 1 = []) ∧
    ((1 : Int) < 3 →
      (shrink_victims [(VMInfo.mk 7 "a" "running" [], "active"),
        (VMInfo.mk 9 "b" "running" [], "active"),
        (VMInfo.mk 8 "c" "stopped" [], "pending")] 1).length = ((3 : Int) - 1).toNat ∧
      ∃ ordered : List (VMInfo × String),
        ordered.Perm [(VMInfo.mk 7 "a" "running" [], "active"),
          (VMInfo.mk 9 "b" "running" [], "active"),
          (VMInfo.mk 8 "c" "stopped" [], "pending")] ∧
        ordered.Sorted shrink_key_le ∧
        shrink_victims [(VMInfo.mk 7 "a" "running" [], "active"),
          (VMInfo.mk 9 "b" "running" [], "active"),
          (VMInfo.mk 8 "c" "stopped" [], "pending")] 1 =
          ordered.take ((3 : Int) - 1).toNat) :=
  shrink_to_desired_policy
    [(VMInfo.mk 7 "a" "running" [], "active"), (VMInfo.mk 9 "b" "running" [], "active"),
      (VMInfo.mk 8 "c" "stopped" [], "pending")] 1 (by decide)

/-! ## Desired-size mutations (`ScalingService`) -/

/-- `GroupContext.managed_group_vms(group)` over an inventory snapshot:
ensure each VM's state, keep the `(vm, state)` pairs whose state is
`active` or `pending`; threads the ledger writes of the seeding. -/
def managed_group_vms (now : Int) (group : GroupConfig) (vms : List VMInfo) (l : Ledger) :
    List (VMInfo × String) × Ledger :=
  match vms with
  | [] => ([], l)
  | vm :: rest =>
    match ensure_vm_state now group vm l with
    | (st, l1) =>
      match managed_group_vms now group rest l1 with
      | (out, l2) =>
        if st == "active" || st == "pending" then ((vm, st) :: out, l2) else (out, l2)

/-- `ScalingService.ensure_desired_size_initialized(group, observed)`:
insert `max(min_size, observed)` when the row is missing, then return the
stored value clamped to `[min_size, max_size]`. -/
def ensure_desired_size_initialized (group : GroupConfig) (observed : Int)
    (g : GroupSizes) : Int × GroupSizes :=
  match get_desired_size (set_desired_size_if_missing g group.id
      (max group.min_size observed)) group.id with
  | none =>
    (max group.min_size observed,
      set_desired_size (set_desired_size_if_missing g group.id (max group.min_size observed))
        group.id (max group.min_size observed))
  | some desired =>
    (max group.min_size (min group.max_size desired),
      set_desired_size_if_missing g group.id (max group.min_size observed))

/-- The orchestrator's durable state: the two store tables. -/
structure OrchSt where
  vm_states : Ledger
  sizes : GroupSizes
deriving DecidableEq, Repr

/-- The error taxonomy raised by the scaling service. -/
inductive RpcErr where
  | invalid_argument
  | failed_precondition
  | not_found
  | invalid_transition
deriving DecidableEq, Repr

/-- `ScalingService.node_group_increase_size(group_id, delta)`, with the
group already resolved and the inventory snapshot `vms` standing for
`group_vms`.  Failures return the state as already persisted at the point
the exception is raised. -/
def node_group_increase_size (now : Int) (group : GroupConfig) (vms : List VMInfo)
    (delta : Int) (s : OrchSt) : Option RpcErr × OrchSt :=
  if delta ≤ 0 then (some .invalid_argument, s)
  else
    match managed_group_vms now group vms s.vm_states with
    | (managed, l1) =>
      match ensure_desired_size_initialized group managed.length s.sizes with
      | (desired, g1) =>
        if desired + delta > group.max_size then
          (some .failed_precondition, ⟨l1, g1⟩)
        else (none, ⟨l1, set_desired_size g1 group.id (desired + delta)⟩)

/-- `ScalingService.node_group_decrease_target_size(group_id, delta)`,
mirror of the above. -/
def node_group_decrease_target_size (now : Int) (group : GroupConfig) (vms : List VMInfo)
    (delta : Int) (s : OrchSt) : Option RpcErr × OrchSt :=
  if delta ≥ 0 then (some .invalid_argument, s)
  else
    match managed_group_vms now group vms s.vm_states with
    | (managed, l1) =>
      match ensure_desired_size_initialized group managed.length s.sizes with
      | (desired, g1) =>
        if desired + delta < group.min_size then
          (some .failed_precondition, ⟨l1, g1⟩)
        else (none, ⟨l1, set_desired_size g1 group.id (desired + delta)⟩)

/-- C4 counterexample: with no desired-size row persisted for the group
(min 0, max 5, no VMs), `NodeGroupIncreaseSize(delta = 6)` fails with
`FailedPrecondition` and yet the desired-size ledger is changed: the
failing call first initializes the missing row to the baseline 0. -/
theorem increase_size_initializes_on_failure_counterexample :
    (node_group_increase_size 0 (GroupConfig.mk "g" 0 5) [] 6 (OrchSt.mk [] [])).1 =
      some RpcErr.failed_precondition ∧
    get_desired_size ((OrchSt.mk ([] : Ledger) ([] : GroupSizes)).sizes) "g" = none ∧
    get_desired_size
      ((node_group_increase_size 0 (GroupConfig.mk "g" 0 5) [] 6 (OrchSt.mk [] [])).2.sizes)
      "g" = some 0 := by
  decide

/-- `ensure_desired_size_initialized` returns the stored value (or the
freshly initialized baseline) clamped to `[min_size, max_size]`, and its
only write is the insert-if-missing of the baseline. -/
theorem ensure_desired_spec (group : GroupConfig) (observed : Int) (g : GroupSizes) :
    (ensure_desired_size_initialized group observed g).1 =
      max group.min_size (min group.max_size
        ((get_desired_size g group.id).getD (max group.min_size observed))) ∧
    (ensure_desired_size_initialized group observed g).2 =
      set_desired_size_if_missing g group.id (max group.min_size observed) := by
  obtain ⟨h1, _⟩ := get_set_if_missing g group.id (max group.min_size observed)
  unfold ensure_desired_size_initialized
  rw [h1]
  exact ⟨rfl, rfl⟩

/-- C4 (amended): `node_group_increase_size` fails with `InvalidArgument`
for `delta ≤ 0` leaving the state untouched; for `delta > 0` it reads the
clamped desired value, fails with `FailedPrecondition` when
`desired + delta > max_size`, and otherwise persists
`desired_size = desired + delta`.  `node_group_decrease_target_size`
mirrors this against `min_size`.  On a `FailedPrecondition` failure an
already-present desired-size row is left unchanged — but when the row was
absent, the failing call has still initialized it to
`max(min_size, observed)` (the deviation forced by the counterexample). -/
theorem scaling_bounds_behavior (now : Int) (group : GroupConfig) (vms : List VMInfo)
    (delta : Int) (s : OrchSt) :
    ((ensure_desired_size_initialized group
        (managed_group_vms now group vms s.vm_states).1.length s.sizes).1 =
      max group.min_size (min group.max_size
        ((get_desired_size s.sizes group.id).getD
          (max group.min_size (managed_group_vms now group vms s.vm_states).1.length)))) ∧
    (delta ≤ 0 →
      node_group_increase_size now group vms delta s = (some .invalid_argument, s)) ∧
    (0 < delta →
      ((ensure_desired_size_initialized group
          (managed_group_vms now group vms s.vm_states).1.length s.sizes).1 + delta >
          group.max_size →
        (node_group_increase_size now group vms delta s).1 = some .failed_precondition ∧
        ((get_desired_size s.sizes group.id).isSome = true →
          (node_group_increase_size now group vms delta s).2.sizes = s.sizes) ∧
        (get_desired_size s.sizes group.id = none →
          get_desired_size (node_group_increase_size now group vms delta s).2.sizes
              group.id =
            some (max group.min_size
              (managed_group_vms now group vms s.vm_states).1.length))) ∧
      ((ensure_desired_size_initialized group
          (managed_group_vms now group vms s.vm_states).1.length s.sizes).1 + delta ≤
          group.max_size →
        (node_group_increase_size now group vms delta s).1 = none ∧
        get_desired_size (node_group_increase_size now group vms delta s).2.sizes group.id =
          some ((ensure_desired_size_initialized group
            (managed_group_vms now group vms s.vm_states).1.length s.sizes).1 + delta))) ∧
    (0 ≤ delta →
      node_group_decrease_target_size now group vms delta s = (some .invalid_argument, s)) ∧
    (delta < 0 →
      ((ensure_desired_size_initialized group
          (managed_group_vms now group vms s.vm_states).1.length s.sizes).1 + delta <
          group.min_size →
        (node_group_decrease_target_size now group vms delta s).1 =
          some .failed_precondition ∧
        ((get_desired_size s.sizes group.id).isSome = true →
          (node_group_decrease_target_size now group vms delta s).2.sizes = s.sizes) ∧
        (get_desired_size s.sizes group.id = none →
          get_desired_size (node_group_decrease_target_size now group vms delta s).2.sizes
              group.id =
            some (max group.min_size
              (managed_group_vms now group vms s.vm_states).1.length))) ∧
      (group.min_size ≤ (ensure_desired_size_initialized group
          (managed_group_vms now group vms s.vm_states).1.length s.sizes).1 + delta →
        (node_group_decrease_target_size now group vms delta s).1 = none ∧
        get_desired_size (node_group_decrease_target_size now group vms delta s).2.sizes
            group.id =
          some ((ensure_desired_size_initialized group
            (managed_group_vms now group vms s.vm_states).1.length s.sizes).1 + delta))) := by
  obtain ⟨hfst, hsnd⟩ := ensure_desired_spec group
    (managed_group_vms now group vms s.vm_states).1.length s.sizes
  obtain ⟨hmiss1, hmiss2⟩ := get_set_if_missing s.sizes group.id
    (max group.min_size (managed_group_vms now group vms s.vm_states).1.length)
  refine ⟨hfst, ?_, ?_, ?_, ?_⟩
  · intro h
    unfold node_group_increase_size
    rw [if_pos h]
  · intro hpos
    have hd0 : ¬delta ≤ 0 := by omega
    have hingr : node_group_increase_size now group vms delta s =
        (if (ensure_desired_size_initialized group
            (managed_group_vms now group vms s.vm_states).1.length s.sizes).1 + delta >
            group.max_size then
          (some .failed_precondition,
            OrchSt.mk (managed_group_vms now group vms s.vm_states).2
              (ensure_desired_size_initialized group
                (managed_group_vms now group vms s.vm_states).1.length s.sizes).2)
        else
          (none,
            OrchSt.mk (managed_group_vms now group vms s.vm_states).2
              (set_desired_size (ensure_desired_size_initialized group
                  (managed_group_vms now group vms s.vm_states).1.length s.sizes).2
                group.id
                ((ensure_desired_size_initialized group
                  (managed_group_vms now group vms s.vm_states).1.length s.sizes).1 +
                  delta)))) := by
      unfold node_group_increase_size
      rw [if_neg hd0]
    constructor
    · intro hgt
      rw [hingr, if_pos hgt]
      refine ⟨rfl, ?_, ?_⟩
      · intro hrow
        show (ensure_desired_size_initialized group
          (managed_group_vms now group vms s.vm_states).1.length s.sizes).2 = s.sizes
        rw [hsnd]
        exact hmiss2 hrow
      · intro hnone
        show get_desired_size (ensure_desired_size_initialized group
          (managed_group_vms now group vms s.vm_states).1.length s.sizes).2 group.id = _
        rw [hsnd, hmiss1, hnone]
        rfl
    · intro hle
      rw [hingr, if_neg (by omega)]
      exact ⟨rfl, get_set_desired_size_self _ _ _⟩
  · intro h
    unfold node_group_decrease_target_size
    rw [if_pos h]
  · intro hneg
    have hd0 : ¬delta ≥ 0 := by omega
    have hdecr : node_group_decrease_target_size now group vms delta s =
        (if (ensure_desired_size_initialized group
            (managed_group_vms now group vms s.vm_states).1.length s.sizes).1 + delta <
            group.min_size then
          (some .failed_precondition,
            OrchSt.mk (managed_group_vms now group vms s.vm_states).2
              (ensure_desired_size_initialized group
                (managed_group_vms now group vms s.vm_states).1.length s.sizes).2)
        else
          (none,
            OrchSt.mk (managed_group_vms now group vms s.vm_states).2
              (set_desired_size (ensure_desired_size_initialized group
                  (managed_group_vms now group vms s.vm_states).1.length s.sizes).2
                group.id
                ((ensure_desired_size_initialized group
                  (managed_group_vms now group vms s.vm_states).1.length s.sizes).1 +
                  delta)))) := by
      unfold node_group_decrease_target_size
      rw [if_neg hd0]
    constructor
    · intro hlt
      rw [hdecr, if_pos hlt]
      refine ⟨rfl, ?_, ?_⟩
      · intro hrow
        show (ensure_desired_size_initialized group
          (managed_group_vms now group vms s.vm_states).1.length s.sizes).2 = s.sizes
        rw [hsnd]
        exact hmiss2 hrow
      · intro hnone
        show get_desired_size (ensure_desired_size_initialized group
          (managed_group_vms now group vms s.vm_states).1.length s.sizes).2 group.id = _
        rw [hsnd, hmiss1, hnone]
        rfl
    · intro hge
      rw [hdecr, if_neg (by omega)]
      exact ⟨rfl, get_set_desired_size_self _ _ _⟩

/-- Witness for C4 at min 0, max 5, stored desired 2, delta 1: the
increase succeeds and persists 3. -/
theorem scaling_bounds_behavior_witness :
    ((ensure_desired_size_initialized (GroupConfig.mk "g" 0 5)
        (managed_group_vms (0 : Int) (GroupConfig.mk "g" 0 5) ([] : List VMInfo) (OrchSt.mk [] [("g", 2)]).vm_states).1.length (OrchSt.mk [] [("g", 2)]).sizes).1 =
      max (GroupConfig.mk "g" 0 5).min_size (min (GroupConfig.mk "g" 0 5).max_size
        ((get_desired_size (OrchSt.mk [] [("g", 2)]).sizes (GroupConfig.mk "g" 0 5).id).getD
          (max (GroupConfig.mk "g" 0 5).min_size (managed_group_vms (0 : Int) (GroupConfig.mk "g" 0 5) ([] : List VMInfo) (OrchSt.mk [] [("g", 2)]).vm_states).1.length)))) ∧
    ((1 : Int) ≤ 0 →
      node_group_increase_size (0 : Int) (GroupConfig.mk "g" 0 5) ([] : List VMInfo) (1 : Int) (OrchSt.mk [] [("g", 2)]) = (some .invalid_argument, (OrchSt.mk [] [("g", 2)]))) ∧
    (0 < (1 : Int) →
      ((ensure_desired_size_initialized (GroupConfig.mk "g" 0 5)
          (managed_group_vms (0 : Int) (GroupConfig.mk "g" 0 5) ([] : List VMInfo) (OrchSt.mk [] [("g", 2)]).vm_states).1.length (OrchSt.mk [] [("g", 2)]).sizes).1 + (1 : Int) >
          (GroupConfig.mk "g" 0 5).max_size →
        (node_group_increase_size (0 : Int) (GroupConfig.mk "g" 0 5) ([] : List VMInfo) (1 : Int) (OrchSt.mk [] [("g", 2)])).1 = some .failed_precondition ∧
        ((get_desired_size (OrchSt.mk [] [("g", 2)]).sizes (GroupConfig.mk "g" 0 5).id).isSome = true →
          (node_group_increase_size (0 : Int) (GroupConfig.mk "g" 0 5) ([] : List VMInfo) (1 : Int) (OrchSt.mk [] [("g", 2)])).2.sizes = (OrchSt.mk [] [("g", 2)]).sizes) ∧
        (get_desired_size (OrchSt.mk [] [("g", 2)]).sizes (GroupConfig.mk "g" 0 5).id = none →
          get_desired_size (node_group_increase_size (0 : Int) (GroupConfig.mk "g" 0 5) ([] : List VMInfo) (1 : Int) (OrchSt.mk [] [("g", 2)])).2.sizes
              (GroupConfig.mk "g" 0 5).id =
            some (max (GroupConfig.mk "g" 0 5).min_size
              (managed_group_vms (0 : Int) (GroupConfig.mk "g" 0 5) ([] : List VMInfo) (OrchSt.mk [] [("g", 2)]).vm_states).1.length))) ∧
      ((ensure_desired_size_initialized (GroupConfig.mk "g" 0 5)
          (managed_group_vms (0 : Int) (GroupConfig.mk "g" 0 5) ([] : List VMInfo) (OrchSt.mk [] [("g", 2)]).vm_states).1.length (OrchSt.mk [] [("g", 2)]).sizes).1 + (1 : Int) ≤
          (GroupConfig.mk "g" 0 5).max_size →
        (node_group_increase_size (0 : Int) (GroupConfig.mk "g" 0 5) ([] : List VMInfo) (1 : Int) (OrchSt.mk [] [("g", 2)])).1 = none ∧
        get_desired_size (node_group_increase_size (0 : Int) (GroupConfig.mk "g" 0 5) ([] : List VMInfo) (1 : Int) (OrchSt.mk [] [("g", 2)])).2.sizes (GroupConfig.mk "g" 0 5).id =
          some ((ensure_desired_size_initialized (GroupConfig.mk "g" 0 5)
            (managed_group_vms (0 : Int) (GroupConfig.mk "g" 0 5) ([] : List VMInfo) (OrchSt.mk [] [("g", 2)]).vm_states).1.length (OrchSt.mk [] [("g", 2)]).sizes).1 + (1 : Int)))) ∧
    (0 ≤ (1 : Int) →
      node_group_decrease_target_size (0 : Int) (GroupConfig.mk "g" 0 5) ([] : List VMInfo) (1 : Int) (OrchSt.mk [] [("g", 2)]) = (some .invalid_argument, (OrchSt.mk [] [("g", 2)]))) ∧
    ((1 : Int) < 0 →
      ((ensure_desired_size_initialized (GroupConfig.mk "g" 0 5)
          (managed_group_vms (0 : Int) (GroupConfig.mk "g" 0 5) ([] : List VMInfo) (OrchSt.mk [] [("g", 2)]).vm_states).1.length (OrchSt.mk [] [("g", 2)]).sizes).1 + (1 : Int) <
          (GroupConfig.mk "g" 0 5).min_size →
        (node_group_decrease_target_size (0 : Int) (GroupConfig.mk "g" 0 5) ([] : List VMInfo) (1 : Int) (OrchSt.mk [] [("g", 2)])).1 =
          some .failed_precondition ∧
        ((get_desired_size (OrchSt.mk [] [("g", 2)]).sizes (GroupConfig.mk "g" 0 5).id).isSome = true →
          (node_group_decrease_target_size (0 : Int) (GroupConfig.mk "g" 0 5) ([] : List VMInfo) (1 : Int) (OrchSt.mk [] [("g", 2)])).2.sizes = (OrchSt.mk [] [("g", 2)]).sizes) ∧
        (get_desired_size (OrchSt.mk [] [("g", 2)]).sizes (GroupConfig.mk "g" 0 5).id = none →
          get_desired_size (node_group_decrease_target_size (0 : Int) (GroupConfig.mk "g" 0 5) ([] : List VMInfo) (1 : Int) (OrchSt.mk [] [("g", 2)])).2.sizes
              (GroupConfig.mk "g" 0 5).id =
            some (max (GroupConfig.mk "g" 0 5).min_size
              (managed_group_vms (0 : Int) (GroupConfig.mk "g" 0 5) ([] : List VMInfo) (OrchSt.mk [] [("g", 2)]).vm_states).1.length))) ∧
      ((GroupConfig.mk "g" 0 5).min_size ≤ (ensure_desired_size_initialized (GroupConfig.mk "g" 0 5)
          (managed_group_vms (0 : Int) (GroupConfig.mk "g" 0 5) ([] : List VMInfo) (OrchSt.mk [] [("g", 2)]).vm_states).1.length (OrchSt.mk [] [("g", 2)]).sizes).1 + (1 : Int) →
        (node_group_decrease_target_size (0 : Int) (GroupConfig.mk "g" 0 5) ([] : List VMInfo) (1 : Int) (OrchSt.mk [] [("g", 2)])).1 = none ∧
        get_desired_size (node_group_decrease_target_size (0 : Int) (GroupConfig.mk "g" 0 5) ([] : List VMInfo) (1 : Int) (OrchSt.mk [] [("g", 2)])).2.sizes
            (GroupConfig.mk "g" 0 5).id =
          some ((ensure_desired_size_initialized (GroupConfig.mk "g" 0 5)
            (managed_group_vms (0 : Int) (GroupConfig.mk "g" 0 5) ([] : List VMInfo) (OrchSt.mk [] [("g", 2)]).vm_states).1.length (OrchSt.mk [] [("g", 2)]).sizes).1 + (1 : Int)))) :=
  scaling_bounds_behavior (0 : Int) (GroupConfig.mk "g" 0 5) ([] : List VMInfo) (1 : Int)
    (OrchSt.mk [] [("g", 2)])

/-! ## `node_group_delete_nodes` (services/scaling_service.py) -/

/-- The per-node loop of `node_group_delete_nodes`: resolve each node and
request deletion as it goes; an unresolved node raises `NotFound` with
the deletions already persisted. -/
def delete_nodes_loop (now : Int) (group : GroupConfig) (vms : List VMInfo)
    (iso : Nat → Option (String × String)) :
    List ManagedNode → Ledger → Option RpcErr × Ledger
  | [], l => (none, l)
  | node :: rest, l =>
    match find_vm_for_node vms node with
    | none => (some .not_found, l)
    | some vm =>
      match request_vm_deletion now group vm (iso vm.vmid) l with
      | none => (some .invalid_transition, l)
      | some l1 => delete_nodes_loop now group vms iso rest l1

/-- `ScalingService.node_group_delete_nodes(group_id, nodes)`, with the
group resolved and the inventory snapshot `vms` standing for `group_vms`:
empty list returns immediately; otherwise run the loop, and on success
set `desired_size := max(min_size, desired - len(nodes))` where `desired`
is the initialized clamped value observed against the post-deletion
managed count. -/
def node_group_delete_nodes (now : Int) (group : GroupConfig) (vms : List VMInfo)
    (iso : Nat → Option (String × String)) (nodes : List ManagedNode) (s : OrchSt) :
    Option RpcErr × OrchSt :=
  if nodes.isEmpty then (none, s)
  else
    match delete_nodes_loop now group vms iso nodes s.vm_states with
    | (some e, l1) => (some e, OrchSt.mk l1 s.sizes)
    | (none, l1) =>
      match managed_group_vms now group vms l1 with
      | (managed, l2) =>
        match ensure_desired_size_initialized group (managed.length : Int) s.sizes with
        | (desired, g1) =>
          (none, OrchSt.mk l2 (set_desired_size g1 group.id
            (max group.min_size (desired - (nodes.length : Int)))))

/-- C3 counterexample: two active VMs are not needed — with VM 101 active
and the node list `[ca-general-101, ghost]`, the call fails with
`NotFound` (ghost does not resolve) and yet the ledger is touched: record
101 moved from `active` to `deleting_vm` before the failure. -/
theorem delete_nodes_partial_mutation_counterexample :
    (node_group_delete_nodes 0 (GroupConfig.mk "general" 0 5)
        [VMInfo.mk 101 "ca-general-101" "running" []] (fun _ => none)
        [ManagedNode.mk "k3s://ca-general-101" "ca-general-101" [],
          ManagedNode.mk "k3s://ghost" "ghost" []]
        (OrchSt.mk
          [VMStateRecord.mk 101 "general" "ca-general-101" "active" none 0 none none none]
          [("general", 2)])).1 = some RpcErr.not_found ∧
    (get_vm_state
        [VMStateRecord.mk 101 "general" "ca-general-101" "active" none 0 none none none]
        101).map (fun r => r.state) = some "active" ∧
    (get_vm_state
        (node_group_delete_nodes 0 (GroupConfig.mk "general" 0 5)
          [VMInfo.mk 101 "ca-general-101" "running" []] (fun _ => none)
          [ManagedNode.mk "k3s://ca-general-101" "ca-general-101" [],
            ManagedNode.mk "k3s://ghost" "ghost" []]
          (OrchSt.mk
            [VMStateRecord.mk 101 "general" "ca-general-101" "active" none 0 none none none]
            [("general", 2)])).2.vm_states 101).map (fun r => r.state) =
      some "deleting_vm" := by
  decide

/-- A key holding a record of this group in a delete state. -/
def DeleteBound (group : GroupConfig) (l : Ledger) (w : Nat) : Prop :=
  ∃ rec, get_vm_state l w = some rec ∧ rec.group_id = group.id ∧
    is_delete_state rec.state = true

/-- When every node resolves, the loop succeeds, leaves every resolved
VM's record in a delete state under the group, and keeps every record
that was already delete-bound. -/
theorem delete_loop_success (now : Int) (group : GroupConfig) (vms : List VMInfo)
    (iso : Nat → Option (String × String)) :
    ∀ (nodes : List ManagedNode) (l : Ledger),
      (∀ node ∈ nodes, (find_vm_for_node vms node).isSome = true) →
      ∃ l', delete_nodes_loop now group vms iso nodes l = (none, l') ∧
        (∀ node ∈ nodes, ∀ vm, find_vm_for_node vms node = some vm →
          DeleteBound group l' vm.vmid) ∧
        (∀ w, DeleteBound group l w → DeleteBound group l' w) := by
  intro nodes
  induction nodes with
  | nil =>
    intro l _
    exact ⟨l, rfl, by simp, fun _ hw => hw⟩
  | cons node rest ih =>
    intro l hall
    obtain ⟨vm, hvm⟩ := Option.isSome_iff_exists.mp (hall node (List.mem_cons_self _ _))
    obtain ⟨l1, r', hrun, hget, hgid, _, hdel, _, _, hother⟩ :=
      request_vm_deletion_spec now group vm (iso vm.vmid) l
    obtain ⟨l', hloop, hres, hkeep⟩ := ih l1 (fun n hn => hall n (List.mem_cons_of_mem _ hn))
    have hstep : delete_nodes_loop now group vms iso (node :: rest) l = (none, l') := by
      show (match find_vm_for_node vms node with
        | none => (some RpcErr.not_found, l)
        | some vm =>
          match request_vm_deletion now group vm (iso vm.vmid) l with
          | none => (some RpcErr.invalid_transition, l)
          | some l1 => delete_nodes_loop now group vms iso rest l1) = (none, l')
      rw [hvm]
      show (match request_vm_deletion now group vm (iso vm.vmid) l with
        | none => (some RpcErr.invalid_transition, l)
        | some l1 => delete_nodes_loop now group vms iso rest l1) = (none, l')
      rw [hrun]
      exact hloop
    refine ⟨l', hstep, ?_, ?_⟩
    · intro n hn vmn hvmn
      rcases List.mem_cons.mp hn with rfl | hn'
      · rw [hvm] at hvmn
        injection hvmn with he
        subst he
        exact hkeep _ ⟨r', hget, hgid, hdel⟩
      · exact hres n hn' vmn hvmn
    · intro w hw
      refine hkeep w ?_
      by_cases hww : w = vm.vmid
      · subst hww
        exact ⟨r', hget, hgid, hdel⟩
      · obtain ⟨rec, hrec, hg2, hd2⟩ := hw
        refine ⟨rec, ?_, hg2, hd2⟩
        rw [hother w hww]
        exact hrec

/-- When the nodes split as resolvable prefix, unresolvable node, rest:
the loop fails with `NotFound`, the prefix's resolved VMs are already in
a delete state, and with an empty prefix the ledger is untouched. -/
theorem delete_loop_failure (now : Int) (group : GroupConfig) (vms : List VMInfo)
    (iso : Nat → Option (String × String)) :
    ∀ (good : List ManagedNode) (bad : ManagedNode) (rest : List ManagedNode) (l : Ledger),
      (∀ node ∈ good, (find_vm_for_node vms node).isSome = true) →
      find_vm_for_node vms bad = none →
      ∃ l', delete_nodes_loop now group vms iso (good ++ bad :: rest) l =
          (some .not_found, l') ∧
        (∀ node ∈ good, ∀ vm, find_vm_for_node vms node = some vm →
          DeleteBound group l' vm.vmid) ∧
        (∀ w, DeleteBound group l w → DeleteBound group l' w) ∧
        (good = [] → l' = l) := by
  intro good
  induction good with
  | nil =>
    intro bad rest l _ hbad
    refine ⟨l, ?_, by simp, fun _ hw => hw, fun _ => rfl⟩
    show (match find_vm_for_node vms bad with
      | none => (some RpcErr.not_found, l)
      | some vm =>
        match request_vm_deletion now group vm (iso vm.vmid) l with
        | none => (some RpcErr.invalid_transition, l)
        | some l1 => delete_nodes_loop now group vms iso rest l1) = (some RpcErr.not_found, l)
    rw [hbad]
  | cons node good' ih =>
    intro bad rest l hall hbad
    obtain ⟨vm, hvm⟩ := Option.isSome_iff_exists.mp (hall node (List.mem_cons_self _ _))
    obtain ⟨l1, r', hrun, hget, hgid, _, hdel, _, _, hother⟩ :=
      request_vm_deletion_spec now group vm (iso vm.vmid) l
    obtain ⟨l', hloop, hres, hkeep, _⟩ :=
      ih bad rest l1 (fun n hn => hall n (List.mem_cons_of_mem _ hn)) hbad
    have hstep : delete_nodes_loop now group vms iso ((node :: good') ++ bad :: rest) l =
        (some .not_found, l') := by
      show (match find_vm_for_node vms node with
        | none => (some RpcErr.not_found, l)
        | some vm =>
          match request_vm_deletion now group vm (iso vm.vmid) l with
          | none => (some RpcErr.invalid_transition, l)
          | some l1 => delete_nodes_loop now group vms iso (good' ++ bad :: rest) l1) =
        (some RpcErr.not_found, l')
      rw [hvm]
      show (match request_vm_deletion now group vm (iso vm.vmid) l with
        | none => (some RpcErr.invalid_transition, l)
        | some l1 => delete_nodes_loop now group vms iso (good' ++ bad :: rest) l1) =
        (some RpcErr.not_found, l')
      rw [hrun]
      exact hloop
    refine ⟨l', hstep, ?_, ?_, fun h => absurd h (List.cons_ne_nil _ _)⟩
    · intro n hn vmn hvmn
      rcases List.mem_cons.mp hn with rfl | hn'
      · rw [hvm] at hvmn
        injection hvmn with he
        subst he
        exact hkeep _ ⟨r', hget, hgid, hdel⟩
      · exact hres n hn' vmn hvmn
    · intro w hw
      refine hkeep w ?_
      by_cases hww : w = vm.vmid
      · subst hww
        exact ⟨r', hget, hgid, hdel⟩
      · obtain ⟨rec, hrec, hg2, hd2⟩ := hw
        refine ⟨rec, ?_, hg2, hd2⟩
        rw [hother w hww]
        exact hrec

/-- The ledger threaded out of `managed_group_vms` after one observation. -/
theorem managed_group_vms_cons_snd (now : Int) (group : GroupConfig) (vm : VMInfo)
    (rest : List VMInfo) (l : Ledger) :
    (managed_group_vms now group (vm :: rest) l).2 =
      (managed_group_vms now group rest (ensure_vm_state now group vm l).2).2 := by
  show (match ensure_vm_state now group vm l with
    | (st, l1) =>
      match managed_group_vms now group rest l1 with
      | (out, l2) =>
        if st == "active" || st == "pending" then ((vm, st) :: out, l2) else (out, l2)).2 = _
  rcases he : ensure_vm_state now group vm l with ⟨st, l1⟩
  rcases hm : managed_group_vms now group rest l1 with ⟨out, l2⟩
  show (match managed_group_vms now group rest l1 with
    | (out, l2) =>
      if (st == "active" || st == "pending") = true then ((vm, st) :: out, l2)
      else (out, l2)).2 = (out, l2).2
  rw [hm]
  show (if (st == "active" || st == "pending") = true then ((vm, st) :: out, l2)
    else (out, l2)).2 = (out, l2).2
  by_cases hc : (st == "active" || st == "pending") = true
  · rw [if_pos hc]
  · rw [if_neg hc]

/-- A record of this group in a legal lifecycle state survives the
observation pass unchanged. -/
theorem managed_group_vms_preserves (now : Int) (group : GroupConfig) :
    ∀ (vms : List VMInfo) (l : Ledger) (w : Nat) (rec : VMStateRecord),
      get_vm_state l w = some rec → rec.group_id = group.id →
      is_lifecycle_state rec.state = true →
      get_vm_state (managed_group_vms now group vms l).2 w = some rec := by
  intro vms
  induction vms with
  | nil =>
    intro l w rec h _ _
    exact h
  | cons vm rest ih =>
    intro l w rec hrec hgid hlc
    rw [managed_group_vms_cons_snd]
    by_cases hw : w = vm.vmid
    · subst hw
      rw [ensure_vm_state_keeps now group vm l rec hrec hgid hlc]
      exact ih l vm.vmid rec hrec hgid hlc
    · refine ih _ w rec ?_ hgid hlc
      rw [ensure_vm_state_other now group vm l w hw]
      exact hrec

/-- C3 (amended): `node_group_delete_nodes` on the empty list is a no-op;
when every node resolves it succeeds, leaves every resolved VM's record
in a delete state, and finally sets
`desired_size = max(min_size, desired - len(nodes))` for the initialized
clamped `desired`; when the list splits as a resolvable prefix followed
by an unresolvable node, it fails with `NotFound` and `desired_size` is
untouched — but the prefix's resolved VMs have already been transitioned
to a delete state; the ledger is untouched only when the first
unresolvable node comes before any resolvable one. -/
theorem node_group_delete_nodes_behavior (now : Int) (group : GroupConfig)
    (vms : List VMInfo) (iso : Nat → Option (String × String))
    (nodes : List ManagedNode) (s : OrchSt) :
    (nodes = [] → node_group_delete_nodes now group vms iso nodes s = (none, s)) ∧
    ((∀ node ∈ nodes, (find_vm_for_node vms node).isSome = true) →
      (node_group_delete_nodes now group vms iso nodes s).1 = none ∧
      (∀ node ∈ nodes, ∀ vm, find_vm_for_node vms node = some vm →
        ∃ rec, get_vm_state
            (node_group_delete_nodes now group vms iso nodes s).2.vm_states vm.vmid =
          some rec ∧ is_delete_state rec.state = true) ∧
      (nodes ≠ [] →
        get_desired_size (node_group_delete_nodes now group vms iso nodes s).2.sizes
            group.id =
          some (max group.min_size
            ((ensure_desired_size_initialized group
              (((managed_group_vms now group vms
                (delete_nodes_loop now group vms iso nodes s.vm_states).2).1.length : Int))
              s.sizes).1 - (nodes.length : Int))))) ∧
    (∀ good bad rest, nodes = good ++ bad :: rest →
      (∀ node ∈ good, (find_vm_for_node vms node).isSome = true) →
      find_vm_for_node vms bad = none →
      (node_group_delete_nodes now group vms iso nodes s).1 = some .not_found ∧
      (node_group_delete_nodes now group vms iso nodes s).2.sizes = s.sizes ∧
      (∀ node ∈ good, ∀ vm, find_vm_for_node vms node = some vm →
        ∃ rec, get_vm_state
            (node_group_delete_nodes now group vms iso nodes s).2.vm_states vm.vmid =
          some rec ∧ is_delete_state rec.state = true) ∧
      (good = [] → (node_group_delete_nodes now group vms iso nodes s).2 = s)) := by
  refine ⟨?_, ?_, ?_⟩
  · intro h
    subst h
    unfold node_group_delete_nodes
    exact if_pos rfl
  · intro hall
    by_cases hne : nodes = []
    · subst hne
      have hresult : node_group_delete_nodes now group vms iso [] s = (none, s) := by
        unfold node_group_delete_nodes
        exact if_pos rfl
      refine ⟨by rw [hresult], ?_, fun h => absurd rfl h⟩
      intro node hn
      exact absurd hn (List.not_mem_nil node)
    · obtain ⟨l', hloop, hres, _⟩ :=
        delete_loop_success now group vms iso nodes s.vm_states hall
      have hrun : node_group_delete_nodes now group vms iso nodes s =
          (none, OrchSt.mk (managed_group_vms now group vms l').2
            (set_desired_size (ensure_desired_size_initialized group
                ((managed_group_vms now group vms l').1.length : Int) s.sizes).2 group.id
              (max group.min_size ((ensure_desired_size_initialized group
                ((managed_group_vms now group vms l').1.length : Int) s.sizes).1 -
                (nodes.length : Int))))) := by
        unfold node_group_delete_nodes
        rw [if_neg (by simpa [List.isEmpty_iff] using hne), hloop]
      refine ⟨by rw [hrun], ?_, ?_⟩
      · intro node hn vm hvm
        obtain ⟨rec, hrec, hg, hd⟩ := hres node hn vm hvm
        refine ⟨rec, ?_, hd⟩
        rw [hrun]
        exact managed_group_vms_preserves now group vms l' vm.vmid rec hrec hg
          (is_delete_state_lifecycle hd)
      · intro _
        rw [hrun, hloop]
        exact get_set_desired_size_self _ _ _
  · intro good bad rest hsplit hgood hbad
    subst hsplit
    obtain ⟨l', hloop, hres, _, hempty⟩ :=
      delete_loop_failure now group vms iso good bad rest s.vm_states hgood hbad
    have hrun : node_group_delete_nodes now group vms iso (good ++ bad :: rest) s =
        (some .not_found, OrchSt.mk l' s.sizes) := by
      unfold node_group_delete_nodes
      rw [if_neg (by simp [List.isEmpty_iff]), hloop]
    refine ⟨by rw [hrun], by rw [hrun], ?_, ?_⟩
    · intro node hn vm hvm
      obtain ⟨rec, hrec, _, hd⟩ := hres node hn vm hvm
      refine ⟨rec, ?_, hd⟩
      rw [hrun]
      exact hrec
    · intro hg0
      rw [hrun, hempty hg0]

/-- Witness for C3's amended theorem: one resolvable node deleting VM 101
out of a group with desired 2. -/
theorem node_group_delete_nodes_behavior_witness :
    ([ManagedNode.mk "k3s://ca-general-101" "ca-general-101" []] = [] → node_group_delete_nodes (0 : Int) (GroupConfig.mk "general" 0 5) [VMInfo.mk 101 "ca-general-101" "running" []] (fun _ => (none : Option (String × String))) [ManagedNode.mk "k3s://ca-general-101" "ca-general-101" []] (OrchSt.mk [VMStateRecord.mk 101 "general" "ca-general-101" "active" none 0 none none none] [("general", 2)]) = (none, (OrchSt.mk [VMStateRecord.mk 101 "general" "ca-general-101" "active" none 0 none none none] [("general", 2)]))) ∧
    ((∀ node ∈ [ManagedNode.mk "k3s://ca-general-101" "ca-general-101" []], (find_vm_for_node [VMInfo.mk 101 "ca-general-101" "running" []] node).isSome = true) →
      (node_group_delete_nodes (0 : Int) (GroupConfig.mk "general" 0 5) [VMInfo.mk 101 "ca-general-101" "running" []] (fun _ => (none : Option (String × String))) [ManagedNode.mk "k3s://ca-general-101" "ca-general-101" []] (OrchSt.mk [VMStateRecord.mk 101 "general" "ca-general-101" "active" none 0 none none none] [("general", 2)])).1 = none ∧
      (∀ node ∈ [ManagedNode.mk "k3s://ca-general-101" "ca-general-101" []], ∀ vm, find_vm_for_node [VMInfo.mk 101 "ca-general-101" "running" []] node = some vm →
        ∃ rec, get_vm_state
            (node_group_delete_nodes (0 : Int) (GroupConfig.mk "general" 0 5) [VMInfo.mk 101 "ca-general-101" "running" []] (fun _ => (none : Option (String × String))) [ManagedNode.mk "k3s://ca-general-101" "ca-general-101" []] (OrchSt.mk [VMStateRecord.mk 101 "general" "ca-general-101" "active" none 0 none none none] [("general", 2)])).2.vm_states vm.vmid =
          some rec ∧ is_delete_state rec.state = true) ∧
      ([ManagedNode.mk "k3s://ca-general-101" "ca-general-101" []] ≠ [] →
        get_desired_size (node_group_delete_nodes (0 : Int) (GroupConfig.mk "general" 0 5) [VMInfo.mk 101 "ca-general-101" "running" []] (fun _ => (none : Option (String × String))) [ManagedNode.mk "k3s://ca-general-101" "ca-general-101" []] (OrchSt.mk [VMStateRecord.mk 101 "general" "ca-general-101" "active" none 0 none none none] [("general", 2)])).2.sizes
            (GroupConfig.mk "general" 0 5).id =
          some (max (GroupConfig.mk "general" 0 5).min_size
            ((ensure_desired_size_initialized (GroupConfig.mk "general" 0 5)
              (((managed_group_vms (0 : Int) (GroupConfig.mk "general" 0 5) [VMInfo.mk 101 "ca-general-101" "running" []]
                (delete_nodes_loop (0 : Int) (GroupConfig.mk "general" 0 5) [VMInfo.mk 101 "ca-general-101" "running" []] (fun _ => (none : Option (String × String))) [ManagedNode.mk "k3s://ca-general-101" "ca-general-101" []] (OrchSt.mk [VMStateRecord.mk 101 "general" "ca-general-101" "active" none 0 none none none] [("general", 2)]).vm_states).2).1.length : Int))
              (OrchSt.mk [VMStateRecord.mk 101 "general" "ca-general-101" "active" none 0 none none none] [("general", 2)]).sizes).1 - ([ManagedNode.mk "k3s://ca-general-101" "ca-general-101" []].length : Int))))) ∧
    (∀ good bad rest, [ManagedNode.mk "k3s://ca-general-101" "ca-general-101" []] = good ++ bad :: rest →
      (∀ node ∈ good, (find_vm_for_node [VMInfo.mk 101 "ca-general-101" "running" []] node).isSome = true) →
      find_vm_for_node [VMInfo.mk 101 "ca-general-101" "running" []] bad = none →
      (node_group_delete_nodes (0 : Int) (GroupConfig.mk "general" 0 5) [VMInfo.mk 101 "ca-general-101" "running" []] (fun _ => (none : Option (String × String))) [ManagedNode.mk "k3s://ca-general-101" "ca-general-101" []] (OrchSt.mk [VMStateRecord.mk 101 "general" "ca-general-101" "active" none 0 none none none] [("general", 2)])).1 = some .not_found ∧
      (node_group_delete_nodes (0 : Int) (GroupConfig.mk "general" 0 5) [VMInfo.mk 101 "ca-general-101" "running" []] (fun _ => (none : Option (String × String))) [ManagedNode.mk "k3s://ca-general-101" "ca-general-101" []] (OrchSt.mk [VMStateRecord.mk 101 "general" "ca-general-101" "active" none 0 none none none] [("general", 2)])).2.sizes = (OrchSt.mk [VMStateRecord.mk 101 "general" "ca-general-101" "active" none 0 none none none] [("general", 2)]).sizes ∧
      (∀ node ∈ good, ∀ vm, find_vm_for_node [VMInfo.mk 101 "ca-general-101" "running" []] node = some vm →
        ∃ rec, get_vm_state
            (node_group_delete_nodes (0 : Int) (GroupConfig.mk "general" 0 5) [VMInfo.mk 101 "ca-general-101" "running" []] (fun _ => (none : Option (String × String))) [ManagedNode.mk "k3s://ca-general-101" "ca-general-101" []] (OrchSt.mk [VMStateRecord.mk 101 "general" "ca-general-101" "active" none 0 none none none] [("general", 2)])).2.vm_states vm.vmid =
          some rec ∧ is_delete_state rec.state = true) ∧
      (good = [] → (node_group_delete_nodes (0 : Int) (GroupConfig.mk "general" 0 5) [VMInfo.mk 101 "ca-general-101" "running" []] (fun _ => (none : Option (String × String))) [ManagedNode.mk "k3s://ca-general-101" "ca-general-101" []] (OrchSt.mk [VMStateRecord.mk 101 "general" "ca-general-101" "active" none 0 none none none] [("general", 2)])).2 = (OrchSt.mk [VMStateRecord.mk 101 "general" "ca-general-101" "active" none 0 none none none] [("general", 2)]))) :=
  node_group_delete_nodes_behavior (0 : Int) (GroupConfig.mk "general" 0 5)
    [VMInfo.mk 101 "ca-general-101" "running" []]
    (fun _ => (none : Option (String × String)))
    [ManagedNode.mk "k3s://ca-general-101" "ca-general-101" []]
    (OrchSt.mk
      [VMStateRecord.mk 101 "general" "ca-general-101" "active" none 0 none none none]
      [("general", 2)])
